import Mathlib

/-!
Lemo-yxk/ws : router registration, lookup and the websocket client dispatch chain.

A shallow embedding of

* `src/http/http_server_router.go` : the group / route builders, `route.Handler`,
  `Router.getRoute`, `Router.formatPath`;
* `src/socket/websocket/client/client.go` : `Client.Use`, `Client.middleware`,
  `Client.handler`, `Client.decodeMessage`, the body of the read loop, and `Client.Connect`
  up to its wait for the stop signal;
* `src/http/http_stream.go` : `Json.Bytes`, `Store.Add`, `Store.Remove`;
* `src/http/client/do.go` : `doUrl`, `doPostFormUrlencoded`;
* `src/utils/http_client.go` : `do`.

Go slices are lists, `append(a, b...)` is `a ++ b`, a nil slice is `[]`.  A pointer that the
code tests against nil is an `Option`.  A Go panic is an `Except.error` returned next to the
state in which the panic happened.

Three parts of the code are embedded a second time, closer to the machine:

* `http.heap` : registration with the hook lists as slices over shared backing arrays
  (`runtime.append`), for what a later `route.Handler` does to a record already inserted;
* `client.Wrapper`, `client.Client.middlewareCalls` : the middleware loop when the call of a
  wrapper has an effect of its own (`client.middlewareCalls_quiet` relates it to
  `Client.middleware`);
* `client.lifecycle` : the goroutines of an open connection around the stop signal, as a
  step function under a schedule.
-/

namespace strings

/-- The library function `strings.ToUpper`, on the ASCII letters.  The theorems use nothing
about it but that it is a function of the string. -/
def ToUpper (s : String) : String := String.mk (s.data.map Char.toUpper)

/-- The library function `strings.ToLower`, on the ASCII letters (see `ToUpper`). -/
def ToLower (s : String) : String := String.mk (s.data.map Char.toLower)

end strings

namespace tire

/-- Modelled from the spec: package `container/tire` (the route trie) is not among the
sources.  This is the trie node that a lookup hands back (`*tire.Tire`); the router reads
its `Data`, the route record stored by `Insert`.  A lookup "fails (returns nothing) ... if a
terminal node exists but carries no record", so a node that is handed back carries one. -/
structure Tire (D : Type) where
  Data : D

/-- Modelled from the spec: the operations of the route trie that the router calls
(`new(tire.Tire)`, `Insert(path, record)`, `GetValue(path)`), taken as a parameter: `T` is
the trie, `D` the record type. -/
structure Ops (T D : Type) where
  new : T
  Insert : T → String → D → T
  GetValue : T → String → Option (Tire D)

/-- The trie "returns the record inserted under an identical key". -/
def Ops.ReturnsInserted {T D : Type} (ops : Ops T D) : Prop :=
  ∀ (t : T) (k : String) (d : D), ∃ n, ops.GetValue (ops.Insert t k d) k = some n ∧ n.Data = d

/-- Lookup in a list of (path, record) pairs, newest first. -/
def lookup {D : Type} : List (String × D) → String → Option (Tire D)
  | [], _ => none
  | (k, d) :: rest, q => if q = k then some ⟨d⟩ else lookup rest q

/-- A trie of literal paths only: the records in insertion order (newest first), looked up
by the identical path. -/
def literal (D : Type) : Ops (List (String × D)) D where
  new := []
  Insert := fun t k d => (k, d) :: t
  GetValue := lookup

end tire

namespace http

/-- The `group` builder.  `B` and `A` are the types of the before and after hooks, which
registration only stores.  The back-reference `router` is the router state that
`route.Handler` is run on. -/
structure group (B A : Type) where
  path : String := ""
  before : List B := []
  after : List A := []

/-- Go: `group.Route`. -/
def group.Route {B A : Type} (g : group B A) (path : String) : group B A :=
  { g with path := path }

/-- Go: `group.Before`. -/
def group.Before {B A : Type} (g : group B A) (before : List B) : group B A :=
  { g with before := g.before ++ before }

/-- Go: `group.After`. -/
def group.After {B A : Type} (g : group B A) (after : List A) : group B A :=
  { g with after := g.after ++ after }

/-- Go: `type RouteHandler struct { group *group }`. -/
structure RouteHandler (B A : Type) where
  group : Option (group B A) := none

/-- Go: `type route struct`. -/
structure route (B A : Type) where
  path : String := ""
  method : String := ""
  before : List B := []
  after : List A := []
  passBefore : Bool := false
  forceBefore : Bool := false
  passAfter : Bool := false
  forceAfter : Bool := false
  group : Option (group B A) := none

/-- Go: `RouteHandler.Route`. -/
def RouteHandler.Route {B A : Type} (handler : RouteHandler B A) (method path : String) :
    route B A :=
  { path := path, method := method, group := handler.group }

/-- Go: `RouteHandler.Get`. -/
def RouteHandler.Get {B A : Type} (handler : RouteHandler B A) (path : String) : route B A :=
  handler.Route "GET" path

/-- Go: `RouteHandler.Post`. -/
def RouteHandler.Post {B A : Type} (handler : RouteHandler B A) (path : String) : route B A :=
  handler.Route "POST" path

/-- Go: `route.Before`. -/
def route.Before {B A : Type} (r : route B A) (before : List B) : route B A :=
  { r with before := r.before ++ before }

/-- Go: `route.PassBefore`. -/
def route.PassBefore {B A : Type} (r : route B A) : route B A :=
  { r with passBefore := true }

/-- Go: `route.ForceBefore`. -/
def route.ForceBefore {B A : Type} (r : route B A) : route B A :=
  { r with forceBefore := true }

/-- Go: `route.After`. -/
def route.After {B A : Type} (r : route B A) (after : List A) : route B A :=
  { r with after := r.after ++ after }

/-- Go: `route.PassAfter`. -/
def route.PassAfter {B A : Type} (r : route B A) : route B A :=
  { r with passAfter := true }

/-- Go: `route.ForceAfter`. -/
def route.ForceAfter {B A : Type} (r : route B A) : route B A :=
  { r with forceAfter := true }

/-- Go: `type node struct`, the route record.  `F` is the type of the route function;
`route` is `[]byte(path)`, kept as the string it is converted from. -/
structure node (B A F : Type) where
  info : String
  route : String
  method : String
  function : F
  before : List B
  after : List A

/-- Go: `type Router struct`; `T` is the trie. -/
structure Router (T : Type) where
  IgnoreCase : Bool := false
  tire : Option T := none
  prefixPath : String := ""
  staticPath : String := ""
  defaultIndex : String := ""

/-- Go: `Router.formatPath`. -/
def Router.formatPath {T : Type} (router : Router T) (path : String) : String :=
  if router.IgnoreCase then strings.ToLower path else path

/-- Go: `Router.Group`; the new group refers to `router`. -/
def Router.Group {T : Type} (B A : Type) (_router : Router T) (path : String) : group B A :=
  ({} : group B A).Route path

/-- Go: `Router.Route`. -/
def Router.Route {T : Type} (B A : Type) (router : Router T) (method path : String) :
    route B A :=
  ({ group := some (router.Group B A "") } : RouteHandler B A).Route method path

/-- Go: the record `hba` that `route.Handler` builds (lines 173 to 200) for the route `r` of
group `g`: `path` is the formatted path, `globalBefore` and `globalAfter` are the package
variables, `file` and `line` what `caller.Caller(1)` returns.  The hook lists are the
values that the slices have when `route.Handler` returns; `http.heap` has the backing
arrays. -/
def route.hba {B A F : Type} (globalBefore : List B) (globalAfter : List A) (file : String)
    (line : Int) (r : route B A) (g : http.group B A) (fn : F) (path : String) :
    node B A F :=
  let method := strings.ToUpper r.method
  let before0 := g.before ++ r.before
  let before1 := if r.passBefore then [] else before0
  let before2 := if r.forceBefore then r.before else before1
  let after0 := g.after ++ r.after
  let after1 := if r.passAfter then [] else after0
  let after2 := if r.forceAfter then r.after else after1
  { info := file ++ ":" ++ toString line
    function := fn
    before := before2 ++ globalBefore
    after := after2 ++ globalAfter
    method := method
    route := path }

/-- Go: `route.Handler`, run on the router that `route.group.router` points to.  The result
is the outcome (a panic message, or normal return) and the router afterwards. -/
def route.Handler {T B A F : Type} (ops : tire.Ops T (node B A F))
    (globalBefore : List B) (globalAfter : List A) (file : String) (line : Int)
    (r : route B A) (fn : F) (router : Router T) : Except String Unit × Router T :=
  if r.path = "" ∨ r.method = "" then
    (.error "route path or method can not empty", router)
  else
    match r.group with
    | none =>
      -- `route.group.router` on a nil group
      (.error "runtime error: invalid memory address or nil pointer dereference", router)
    | some g =>
      let path := router.formatPath (g.path ++ r.path)
      let tire0 : T := match router.tire with
        | none => ops.new
        | some t => t
      let hba := r.hba globalBefore globalAfter file line g fn path
      (.ok (), { router with tire := some (ops.Insert tire0 path hba) })

/-- Go: `Router.getRoute`; the result is the trie node and `pathB`, or nothing. -/
def Router.getRoute {T B A F : Type} (ops : tire.Ops T (node B A F)) (router : Router T)
    (method path : String) : Option (tire.Tire (node B A F) × String) :=
  match router.tire with
  | none => none
  | some tr =>
    let method := strings.ToUpper method
    let path := router.formatPath path
    let pathB := path
    match ops.GetValue tr pathB with
    | none => none
    | some t => if t.Data.method ≠ method then none else some (t, pathB)

end http

namespace socket

/-- Go: `socket.Pack`, the decoded frame (declared outside the sources; the fields are the
ones `decodeMessage` fills in). -/
structure Pack where
  Event : String := ""
  Data : List UInt8 := []
  ID : Int := 0

end socket

namespace kitty

/-- Go: `kitty.Params`. -/
structure Params where
  Keys : List String := []
  Values : List String := []

end kitty

namespace socket

/-- Go: `socket.Stream`, which embeds the `Pack` and carries the route parameters. -/
structure Stream extends Pack where
  Params : kitty.Params := {}

end socket

namespace socket

/-- Modelled from the spec: the frame kinds ("enum: Binary, Ping, Pong, Close, Unknown");
the constants `socket.Unknown`, `socket.Ping`, `socket.Pong`, `socket.Bin` are declared
outside the sources. -/
inductive MessageType where
  | Unknown
  | Bin
  | Ping
  | Pong
  | Close
  deriving DecidableEq

end socket

namespace websocket

/-- The capability `Protocol` (an interface declared outside the sources), as the client
calls it: `Encode(kind, id, event, payload)` and `Decode(message)`; the event bytes are kept
as the string they convert to. -/
structure Protocol where
  Encode : socket.MessageType → Int → String → List UInt8 → List UInt8
  Decode : List UInt8 → socket.MessageType × Int × String × List UInt8

end websocket

namespace time

/-- Go: `time.Duration`, in nanoseconds. -/
abbrev Duration : Type := Int

/-- Go: `time.Second`. -/
def Second : Duration := 1000000000

/-- The library function `time.NewTicker`, by its contract: "The duration d must be greater
than zero; if not, NewTicker will panic."  A ticker is kept as its period. -/
def NewTicker (d : Duration) : Except String Duration :=
  if d ≤ 0 then .error "non-positive interval for NewTicker" else .ok d

end time

namespace client

/-- Go: `type Middle func(client *Client, stream *socket.Stream)`.  `κ` is the connection
handle (`*Client`), `σ` the state of everything the callbacks can touch; a call is a state
transformer. -/
abbrev Middle (κ σ : Type) : Type := κ → socket.Stream → σ → σ

/-- A hook or route function `func(conn *Client, stream *socket.Stream) error`: the error
it returns (`none` is nil) and the state afterwards. -/
abbrev Hook (κ σ : Type) : Type := κ → socket.Stream → σ → Option String × σ

/-- The route record of the websocket router (declared outside the sources; the fields are
the ones `Client.handler` reads). -/
structure node (κ σ : Type) where
  Before : List (Hook κ σ) := []
  Function : Hook κ σ
  After : List (Hook κ σ) := []

/-- The trie node that `getRoute` hands back, as `Client.handler` reads it. -/
structure Tire (κ σ : Type) where
  Data : node κ σ
  Keys : List String := []
  ParseParams : String → List String := fun _ => []

/-- The websocket router (declared outside the sources), taken as its lookup
`getRoute(event)`: the matched trie node and the formatted path, or nothing. -/
structure Router (κ σ : Type) where
  getRoute : String → Option (Tire κ σ × String)

/-- Go: `type Client struct`, the fields that dispatch reads.  A middleware wrapper
`func(Middle) Middle` is a function from the next `Middle` to a `Middle`: building the
closure has no effect of its own (for wrappers whose call has an effect see `Wrapper`). -/
structure Client (κ σ : Type) where
  Name : String := ""
  Scheme : String := ""
  Addr : String := ""
  Path : String := ""
  HeartBeatTimeout : time.Duration := 0
  HeartBeatInterval : time.Duration := 0
  HeartBeat : Option (κ → σ → Option String × σ) := none
  ReconnectInterval : time.Duration := 0
  WriteBufferSize : Int := 0
  ReadBufferSize : Int := 0
  DailTimeout : time.Duration := 0
  OnOpen : Option (κ → σ → σ) := none
  OnClose : Option (κ → σ → σ) := none
  OnMessage : Option (κ → Int → List UInt8 → σ → σ) := none
  OnError : Option (String → σ → σ) := none
  OnSuccess : Option (σ → σ) := none
  OnReconnecting : Option (σ → σ) := none
  OnUnknown : Option (κ → List UInt8 → Middle κ σ → σ → σ) := none
  PingHandler : Option (κ → String → σ → Option String × σ) := none
  PongHandler : Option (κ → String → σ → Option String × σ) := none
  Protocol : Option websocket.Protocol := none
  router : Option (Router κ σ) := none
  middle : List (Middle κ σ → Middle κ σ) := []
  isStop : Bool := false
  heartbeatTicker : Option time.Duration := none
  pongTimer : Option time.Duration := none

variable {κ σ : Type}

/-- Go: `Client.Use`. -/
def Client.Use (c : Client κ σ) (middle : List (Middle κ σ → Middle κ σ)) : Client κ σ :=
  { c with middle := c.middle ++ middle }

/-- Go: `Client.SetRouter`. -/
def Client.SetRouter (c : Client κ σ) (router : Router κ σ) : Client κ σ :=
  { c with router := some router }

/-- Go: `if c.OnError != nil { c.OnError(err) }`. -/
def Client.reportError (c : Client κ σ) (err : String) (w : σ) : σ :=
  match c.OnError with
  | some onError => onError err w
  | none => w

/-- Go: the loops of `Client.handler` over `nodeData.Before` and `nodeData.After`, from the
current index on: each hook is called in turn; the first error is reported and `handler`
returns (`false`); `true` when the loop ran to its end. -/
def Client.hookLoop (c : Client κ σ) (conn : κ) (stream : socket.Stream) :
    List (Hook κ σ) → σ → Bool × σ
  | [], w => (true, w)
  | hook :: rest, w =>
    match hook conn stream w with
    | (some err, w1) => (false, c.reportError err w1)
    | (none, w1) => c.hookLoop conn stream rest w1

/-- Go: `Client.handler`. -/
def Client.handler (c : Client κ σ) (conn : κ) (stream : socket.Stream) (w : σ) : σ :=
  match c.router with
  | none => c.reportError (stream.Event ++ " " ++ "404 not found") w
  | some router =>
    match router.getRoute stream.Event with
    | none => c.reportError (stream.Event ++ " " ++ "404 not found") w
    | some (n, formatPath) =>
      let nodeData := n.Data
      let stream : socket.Stream :=
        { stream with Params := { Keys := n.Keys, Values := n.ParseParams formatPath } }
      match c.hookLoop conn stream nodeData.Before w with
      | (false, w1) => w1
      | (true, w1) =>
        match nodeData.Function conn stream w1 with
        | (some err, w2) => c.reportError err w2
        | (none, w2) =>
          match c.hookLoop conn stream nodeData.After w2 with
          | (_, w3) => w3

/-- Go: the loop `for i := len(c.middle) - 1; i >= 0; i-- { next = c.middle[i](next) }` of
`Client.middleware`, with `n = i + 1` iterations left. -/
def Client.wrap (c : Client κ σ) : Nat → Middle κ σ → Middle κ σ
  | 0, next => next
  | i + 1, next =>
    match c.middle[i]? with
    | some m => c.wrap i (m next)
    | none => c.wrap i next

/-- Go: `Client.middleware`. -/
def Client.middleware (c : Client κ σ) (conn : κ) (stream : socket.Stream) (w : σ) : σ :=
  c.wrap c.middle.length c.handler conn stream w

/-- A middleware wrapper `func(Middle) Middle` as a Go function: the call `wrapper(next)`
may have an effect of its own on the state, and returns the `Middle`. -/
abbrev Wrapper (κ σ : Type) : Type := Middle κ σ → σ → Middle κ σ × σ

/-- A wrapper whose call has no effect of its own, as the wrappers in `Client.middle` are. -/
def quiet (wrapper : Middle κ σ → Middle κ σ) : Wrapper κ σ :=
  fun next w => (wrapper next, w)

/-- Go: the loop `for i := len(c.middle) - 1; i >= 0; i-- { next = c.middle[i](next) }` of
`Client.middleware`, each `c.middle[i](next)` being a call with its effect; `n = i + 1`
iterations are left. -/
def wrapCalls (middle : List (Wrapper κ σ)) : Nat → Middle κ σ → σ → Middle κ σ × σ
  | 0, next, w => (next, w)
  | i + 1, next, w =>
    match middle[i]? with
    | some m =>
      match m next w with
      | (next1, w1) => wrapCalls middle i next1 w1
    | none => wrapCalls middle i next w

/-- Go: `Client.middleware` on a client whose registered wrappers are `middle`, the calls of
the wrappers having their effects: the chain is built around `c.handler`, then called. -/
def Client.middlewareCalls (c : Client κ σ) (middle : List (Wrapper κ σ)) (conn : κ)
    (stream : socket.Stream) (w : σ) : σ :=
  match wrapCalls middle middle.length c.handler w with
  | (next, w1) => next conn stream w1

/-- The wrappers of the list called one after the other, the last one first, each on the
`Middle` the one after it returned: the `Middle` the first one returns, and the state after
the calls. -/
def callWrappers : List (Wrapper κ σ) → Middle κ σ → σ → Middle κ σ × σ
  | [], terminal, w => (terminal, w)
  | wrapper :: rest, terminal, w =>
    match callWrappers rest terminal w with
    | (next, w1) => wrapper next w1

/-- The chain built by calling the wrappers `pre` around the `Middle` and from the state of
`first`, then called with the connection and the stream. -/
def callChain (pre : List (Wrapper κ σ)) (first : Middle κ σ × σ) (conn : κ)
    (stream : socket.Stream) : σ :=
  match callWrappers pre first.1 first.2 with
  | (chain, w) => chain conn stream w

/-- The state after the hooks of the list have been called one after the other, in list
order, each on the state the previous one left (what "these hooks are invoked, in order"
means, written without the handler). -/
def callAll (conn : κ) (stream : socket.Stream) : List (Hook κ σ) → σ → σ
  | [], w => w
  | hook :: rest, w => callAll conn stream rest (hook conn stream w).2

/-- The stream as the hooks of a matched route see it: `Client.handler` has set
`stream.Params` from the trie node `n` and the formatted path. -/
def matched (stream : socket.Stream) (n : Tire κ σ) (formatPath : String) : socket.Stream :=
  { stream with Params := { Keys := n.Keys, Values := n.ParseParams formatPath } }

/-- Go: `if c.OnMessage != nil { c.OnMessage(c, messageFrame, message) }`. -/
def Client.notifyMessage (c : Client κ σ) (self : κ) (messageFrame : Int)
    (message : List UInt8) (w : σ) : σ :=
  match c.OnMessage with
  | some onMessage => onMessage self messageFrame message w
  | none => w

/-- The panic of a call through a nil function or interface value. -/
def nilPanic : String := "runtime error: invalid memory address or nil pointer dereference"

/-- Go: `Client.decodeMessage`, on the client whose handle is `self`.  The result is a
panic, or the error handed back to the read loop (`none` is nil), and the state
afterwards. -/
def Client.decodeMessage (c : Client κ σ) (self : κ) (messageFrame : Int)
    (message : List UInt8) (w : σ) : Except String (Option String) × σ :=
  match c.Protocol with
  | none => (.error nilPanic, w)
  | some protocol =>
    match protocol.Decode message with
    | (messageType, id, route, body) =>
      let w1 := c.notifyMessage self messageFrame message w
      if messageType = socket.MessageType.Unknown then
        match c.OnUnknown with
        | some onUnknown => (.ok none, onUnknown self message c.middleware w1)
        | none => (.ok none, w1)
      else if messageType = socket.MessageType.Ping then
        match c.PingHandler with
        | none => (.error nilPanic, w1)
        | some pingHandler =>
          match pingHandler self "" w1 with
          | (err, w2) => (.ok err, w2)
      else if messageType = socket.MessageType.Pong then
        match c.PongHandler with
        | none => (.error nilPanic, w1)
        | some pongHandler =>
          match pongHandler self "" w1 with
          | (err, w2) => (.ok err, w2)
      else
        (.ok none, c.middleware self { Event := route, Data := body, ID := id } w1)

/-- How one pass through the body of the read loop ends. -/
inductive Pass where
  | next
  | exit (stopSignal : Bool)
  | panicked (msg : String)
  deriving DecidableEq

/-- Go: one pass through the body of the read loop of `Connect` (lines 283 to 302); `read`
is what `c.Conn.ReadMessage()` returns.  The pass ends by going round again (`next`), by
`break` after sending on `c.stopCh` or not (`exit`), or by a panic. -/
def Client.readLoop (c : Client κ σ) (self : κ) (read : Except String (Int × List UInt8))
    (w : σ) : Pass × σ :=
  match read with
  | .error _ => (.exit (!c.isStop), w)
  | .ok (messageFrame, message) =>
    match c.decodeMessage self messageFrame message w with
    | (.error msg, w1) => (.panicked msg, w1)
    | (.ok none, w1) => (.next, w1)
    | (.ok (some err), w1) =>
      match c.OnError with
      | none => (.panicked nilPanic, w1)
      | some onError => (.exit (!c.isStop), onError err w1)

/-- The gorilla websocket dialer and connection (outside the sources), as effects on the
state: `Dial(url)` with its error, `Conn.WriteMessage(socket.Bin, message)` with its error,
`pongTimer.Reset(d)`; and the `DefaultProtocol`. -/
structure Net (σ : Type) where
  Dial : String → σ → Option String × σ
  WriteMessage : List UInt8 → σ → Option String × σ
  Reset : time.Duration → σ → σ
  DefaultProtocol : websocket.Protocol

/-- Go: `Client.Push`. -/
def Client.Push (_c : Client κ σ) (net : Net σ) (message : List UInt8) (w : σ) :
    Option String × σ :=
  net.WriteMessage message w

/-- What the main goroutine of `Connect` asks of the runtime, in order. -/
inductive Action where
  | Dial (url : String) (HandshakeTimeout : time.Duration)
      (WriteBufferSize ReadBufferSize : Int)
  | Sleep (d : time.Duration)
  | NewTicker (d : time.Duration)
  | NewTimer (d : time.Duration)
  | SetPingHandler
  | SetPongHandler
  | TickerStop
  | TimerStop
  | Go (routine : String)
  deriving DecidableEq

/-- How the main goroutine of `Connect` ends up: a panic; a return (handshake failed, no
reconnect); blocked on `<-c.stopCh` with the connection open; or still reconnecting when the
bound on the number of attempts is reached. -/
inductive Outcome where
  | panicked (msg : String)
  | returned
  | opened
  | reconnecting
  deriving DecidableEq

/-- Go: lines 120 to 126 of `Client.Connect`, the defaults of Path and Scheme. -/
def Client.defaultPath (c0 : Client κ σ) : Client κ σ :=
  let c1 : Client κ σ := if c0.Path = "" then { c0 with Path := "/" } else c0
  if c1.Scheme = "" then { c1 with Scheme := "ws" } else c1

/-- Go: lines 145 to 176 of `Client.Connect`, the defaults of the dial timeout, the buffer
sizes and the protocol. -/
def Client.defaultDial (net : Net σ) (c2 : Client κ σ) : Client κ σ :=
  let c3 : Client κ σ :=
    if c2.DailTimeout = 0 then { c2 with DailTimeout := 2 * time.Second } else c2
  let c4 : Client κ σ :=
    if c3.WriteBufferSize = 0 then { c3 with WriteBufferSize := 1024 } else c3
  let c5 : Client κ σ :=
    if c4.ReadBufferSize = 0 then { c4 with ReadBufferSize := 1024 } else c4
  let protocol : websocket.Protocol := match c5.Protocol with
    | none => net.DefaultProtocol
    | some p => p
  { c5 with Protocol := some protocol }

/-- Go: lines 192 to 305 of `Client.Connect`, after a handshake that succeeded: the timers,
the default handlers, the goroutines, OnSuccess and OnOpen, up to the wait `<-c.stopCh`.
`protocol` is `c.Protocol`, `onOpen` is `c.OnOpen`, `dialed` what was asked of the runtime
so far. -/
def Client.start (net : Net σ) (self : κ) (protocol : websocket.Protocol)
    (onOpen : κ → σ → σ) (dialed : List Action) (c6 : Client κ σ) (w1 : σ) :
    Outcome × Client κ σ × σ × List Action :=
  let c7 : Client κ σ := { c6 with isStop := false }
  match time.NewTicker c7.HeartBeatInterval with
  | .error msg => (.panicked msg, c7, w1, dialed)
  | .ok ticker =>
    let c8 : Client κ σ :=
      { c7 with heartbeatTicker := some ticker, pongTimer := some c7.HeartBeatTimeout }
    let heartBeat : κ → σ → Option String × σ := match c8.HeartBeat with
      | none => fun _ => c8.Push net (protocol.Encode socket.MessageType.Ping 0 "" [])
      | some f => f
    let pingHandler : κ → String → σ → Option String × σ := match c8.PingHandler with
      | none => fun _ _ => c8.Push net (protocol.Encode socket.MessageType.Pong 0 "" [])
      | some f => f
    let pongHandler : κ → String → σ → Option String × σ := match c8.PongHandler with
      | none => fun _ _ w =>
        (none, if c8.HeartBeatTimeout ≠ 0 then net.Reset c8.HeartBeatTimeout w else w)
      | some f => f
    let c9 : Client κ σ :=
      { c8 with HeartBeat := some heartBeat, PingHandler := some pingHandler,
                PongHandler := some pongHandler }
    let log1 := dialed ++ [.NewTicker c9.HeartBeatInterval, .NewTimer c9.HeartBeatTimeout,
      .SetPingHandler, .SetPongHandler]
    let log2 := if c9.HeartBeatInterval = 0 then log1 ++ [.TickerStop] else log1
    let log3 := log2 ++ [.Go "heartbeat"]
    let log4 := if c9.HeartBeatTimeout = 0 then log3 ++ [.TimerStop] else log3
    let log5 := log4 ++ [.Go "pongTimer"]
    let w2 := match c9.OnSuccess with
      | some onSuccess => onSuccess w1
      | none => w1
    let w3 := onOpen self w2
    (.opened, c9, w3, log5 ++ [.Go "read"])

/-- Go: the body of `Client.Connect` up to the wait `<-c.stopCh` (lines 118 to 305), on the
client whose handle is `self`.  `again` is the call `c.Connect()` that `c.reconnecting()`
makes after a failed handshake (`none` when the bound on the reconnects is reached).  The
result is the outcome, the client's fields, the state, and what was asked of the runtime. -/
def Client.connect (net : Net σ) (self : κ)
    (again : Option (Client κ σ → σ → Outcome × Client κ σ × σ × List Action))
    (c0 : Client κ σ) (w : σ) : Outcome × Client κ σ × σ × List Action :=
  let c2 : Client κ σ := c0.defaultPath
  if c2.Addr = "" then (.panicked "Addr must set", c2, w, []) else
  match c2.OnOpen with
  | none => (.panicked "OnOpen must set", c2, w, [])
  | some onOpen =>
  match c2.OnClose with
  | none => (.panicked "OnClose must set", c2, w, [])
  | some _ =>
  match c2.OnError with
  | none => (.panicked "OnError must set", c2, w, [])
  | some onError =>
  let c6 : Client κ σ := c2.defaultDial net
  let protocol : websocket.Protocol := match c6.Protocol with
    | none => net.DefaultProtocol
    | some p => p
  let url := c6.Scheme ++ "://" ++ c6.Addr ++ c6.Path
  let dialed := [Action.Dial url c6.DailTimeout c6.WriteBufferSize c6.ReadBufferSize]
  match net.Dial url w with
  | (some err, w1) =>
    let w2 := onError err w1
    -- c.reconnecting()
    if c6.ReconnectInterval ≠ 0 then
      let w3 := match c6.OnReconnecting with
        | some onReconnecting => onReconnecting w2
        | none => w2
      match again with
      | none => (.reconnecting, c6, w3, dialed ++ [.Sleep c6.ReconnectInterval])
      | some connectAgain =>
        match connectAgain c6 w3 with
        | (o, c, w4, log) => (o, c, w4, dialed ++ [.Sleep c6.ReconnectInterval] ++ log)
    else (.returned, c6, w2, dialed)
  | (none, w1) => Client.start net self protocol onOpen dialed c6 w1

/-- Go: `Client.Connect` up to the wait `<-c.stopCh`; `fuel` bounds the number of reconnects
after a failed handshake. -/
def Client.Connect (net : Net σ) (self : κ) :
    Nat → Client κ σ → σ → Outcome × Client κ σ × σ × List Action
  | 0 => Client.connect net self none
  | fuel + 1 => Client.connect net self (some (Client.Connect net self fuel))

end client

namespace http

/-- Go: `type Json struct { any jsoniter.Any }`; `Any` is the type `jsoniter.Any`. -/
structure Json (Any : Type) where
  any : Option Any := none

/-- Go: `Json.Bytes`, whose body is `return j.Bytes()`.  `fuel` bounds the depth of the
nested calls; `none` says that the call has not returned within that depth. -/
def Json.Bytes {Any : Type} (j : Json Any) : Nat → Option (List UInt8)
  | 0 => none
  | fuel + 1 => j.Bytes fuel

/-- Go: `type Store struct { keys []string; values [][]string }`. -/
structure Store where
  keys : List String := []
  values : List (List String) := []
  deriving DecidableEq

/-- Go: `Store.Add`. -/
def Store.Add (s : Store) (key : String) (value : List String) : Store :=
  { keys := s.keys ++ [key], values := s.values ++ [value] }

/-- Go: the loop of `Store.Remove` that sets `index`, from position `i` on: the position of
the first key equal to `key`, or `-1`. -/
def Store.index (key : String) : List String → Nat → Int
  | [], _ => -1
  | k :: rest, i => if k = key then (i : Int) else Store.index key rest (i + 1)

/-- Go: `Store.Remove`.  The slice expressions `s.keys[0:index]`, `s.keys[index+1:]` are in
range because `index` is a position of `s.keys`; `s.values[index+1:]` panics when
`s.values` is too short. -/
def Store.Remove (s : Store) (key : String) : Except String Store :=
  let index := Store.index key s.keys 0
  if index = -1 then .ok s
  else if index.toNat + 1 ≤ s.values.length then
    .ok { keys := s.keys.take index.toNat ++ s.keys.drop (index.toNat + 1)
          values := s.values.take index.toNat ++ s.values.drop (index.toNat + 1) }
  else .error "runtime error: slice bounds out of range"

/-- The (key, values) pairs of a store, in order. -/
def Store.pairs (s : Store) : List (String × List String) := s.keys.zip s.values

/-- What removing a key is to do, on the pairs: the first pair whose key is `key` is left
out, every other pair stays, in the same order; nothing changes when no pair has the key. -/
def removeFirst (key : String) : List (String × List String) → List (String × List String)
  | [] => []
  | (k, v) :: rest => if k = key then rest else (k, v) :: removeFirst key rest

end http

namespace strconv

/-- The library function `strconv.Itoa`. -/
def Itoa (i : Int) : String := toString i

end strconv

namespace url

/-- Go: `url.Values`, as the keys in the order they were first set, each with its value. -/
abbrev Values : Type := List (String × String)

/-- The library function `Values.Set`: the key now has this one value. -/
def Values.Set (v : Values) (key value : String) : Values :=
  if v.any (fun e => e.1 = key) then
    v.map (fun e => if e.1 = key then (key, value) else e)
  else v ++ [(key, value)]

end url

/-- A Go value of type `interface{}` as the request builders switch on it: a string, an
int, a float64 (`F`), or a value of any other type (`X`). -/
inductive Iface (F X : Type) where
  | string (s : String)
  | int (i : Int)
  | float64 (f : F)
  | other (x : X)

/-- The request body, a Go `interface{}`: nil, a `map[string]interface{}` (its entries in
iteration order), a `[]map[string]interface{}`, or a value of any other type. -/
inductive Body (F X : Type) where
  | nil
  | map (m : List (String × Iface F X))
  | maps (ms : List (List (String × Iface F X)))
  | other (x : X)

namespace http.client

/-- The library functions that the request builders of `http/client/do.go` call: `url.Parse`,
the `RawQuery` field of a parsed URL and `URL.String` (`URLString`), `Values.Encode`,
`strconv.FormatFloat(v, 'f', -1, 64)`, `fmt.Sprintf("%v", v)` and
`http.NewRequestWithContext(ctx, method, url, body)`.  `U` is `*url.URL`, `R` is
`*http.Request`. -/
structure Lib (U R F X : Type) where
  Parse : String → Except String U
  RawQuery : U → String
  setRawQuery : U → String → U
  URLString : U → String
  Encode : url.Values → String
  FormatFloat : F → String
  Sprintf : X → String
  NewRequestWithContext : String → String → Option String → Except String R

/-- Go: `context.CancelFunc`, the function returned by `context.WithCancel`. -/
inductive CancelFunc where
  | cancel
  deriving DecidableEq

/-- Go: `type info struct` (declared outside the sources), the fields the builders read. -/
structure info (F X : Type) where
  body : Body F X := Body.nil
  headerKey : List String := []
  headerValue : List String := []

variable {U R F X : Type}

/-- Go: the `switch value.(type)` of the builders: the text of a value. -/
def valueText (lib : Lib U R F X) : Iface F X → String
  | .string s => s
  | .int i => strconv.Itoa i
  | .float64 f => lib.FormatFloat f
  | .other x => lib.Sprintf x

/-- Go: the loops of `doUrl` over `body[i]` and its entries, `params.Set(key, text)`. -/
def setParams (lib : Lib U R F X) (body : List (List (String × Iface F X))) : url.Values :=
  body.foldl (fun params m =>
    m.foldl (fun params e => url.Values.Set params e.1 (valueText lib e.2)) params) []

/-- Go: the loops of `doPostFormUrlencoded`, `buff.WriteString(key + "=" + text + "&")`. -/
def writePairs (lib : Lib U R F X) (body : List (List (String × Iface F X))) : String :=
  body.foldl (fun buff m =>
    m.foldl (fun buff e => buff ++ (e.1 ++ "=" ++ valueText lib e.2 ++ "&")) buff) ""

/-- Go: `if info.body == nil { info.body = []map[string]interface{}{} }`. -/
def info.defaultBody (i : info F X) : info F X :=
  match i.body with
  | .nil => { i with body := Body.maps [] }
  | _ => i

/-- Go: `doUrl`.  The result is the triple that is returned (request, cancel function,
error; `none` is nil) and `info` afterwards. -/
def doUrl (lib : Lib U R F X) (method url : String) (i : info F X) :
    (Option R × Option CancelFunc × Option String) × info F X :=
  match lib.Parse url with
  | .error err => ((none, none, some err), i)
  | .ok Url =>
    -- from here on `err` is nil
    let i1 := i.defaultBody
    match i1.body with
    | .maps body =>
      let pStr := lib.Encode (setParams lib body)
      let Url1 := if pStr ≠ "" then lib.setRawQuery Url (lib.RawQuery Url ++ "&" ++ pStr)
        else Url
      match lib.NewRequestWithContext method (lib.URLString Url1) none with
      | .error err => ((none, none, some err), i1)
      | .ok request => ((some request, some CancelFunc.cancel, none), i1)
    | _ => ((none, none, none), i1)

/-- Go: `doPostFormUrlencoded`. -/
def doPostFormUrlencoded (lib : Lib U R F X) (method url : String) (i : info F X) :
    (Option R × Option CancelFunc × Option String) × info F X :=
  let i1 := i.defaultBody
  match i1.body with
  | .maps body =>
    let b := writePairs lib body
    let b1 := if b.length ≠ 0 then String.mk b.data.dropLast else b
    match lib.NewRequestWithContext method url (some b1) with
    | .error err => ((none, none, some err), i1)
    | .ok request => ((some request, some CancelFunc.cancel, none), i1)
  | _ =>
    ((none, none, some "application/x-www-form-urlencoded body must be map[string]interface"),
      i1)

end http.client

namespace utils

/-- Go: `*http.Request`, as `do` builds it: method, URL, body, and the headers and cookies
added to it (header keys as given). -/
structure Request where
  Method : String
  URL : String
  Body : Option String := none
  Header : List (String × String) := []
  Cookies : List String := []
  deriving DecidableEq

/-- The library functions that `do` calls: `url.Parse`, the assignment to `Url.RawQuery`,
`Values.Encode`, `strconv.FormatFloat(v, 'f', -1, 64)`, the error (if any) of
`http.NewRequest(method, url, body)`, `json.Marshal`, and `client.Do` followed by
`ioutil.ReadAll` (the body read, or the error of either). -/
structure Lib (U F X : Type) where
  Parse : String → Except String U
  setRawQuery : U → String → U
  Encode : url.Values → String
  FormatFloat : F → String
  NewRequest : String → String → Option String → Option String
  Marshal : Body F X → Except String String
  Do : Request → Except String (List UInt8)

variable {U F X : Type}

/-- Go: the loop of the GET branch, `params.Set(key, text)`; `none` is the
`return nil, errors.New("invalid query")` of the default case. -/
def queryParams (lib : Lib U F X) : List (String × Iface F X) → url.Values → Option url.Values
  | [], params => some params
  | (key, value) :: rest, params =>
    match value with
    | .string s => queryParams lib rest (url.Values.Set params key s)
    | .int i => queryParams lib rest (url.Values.Set params key (strconv.Itoa i))
    | .float64 f => queryParams lib rest (url.Values.Set params key (lib.FormatFloat f))
    | .other _ => none

/-- Go: the loop of the urlencoded branch, `str += key + "=" + text + "&"`; `none` is the
`return nil, errors.New("invalid params")` of the default case. -/
def formPairs (lib : Lib U F X) : List (String × Iface F X) → String → Option String
  | [], str => some str
  | (key, value) :: rest, str =>
    match value with
    | .string s => formPairs lib rest (str ++ (key ++ "=" ++ s ++ "&"))
    | .int i => formPairs lib rest (str ++ (key ++ "=" ++ strconv.Itoa i ++ "&"))
    | .float64 f => formPairs lib rest (str ++ (key ++ "=" ++ lib.FormatFloat f ++ "&"))
    | .other _ => none

/-- Go: the loop `for key, value := range headerKey` that looks for `Content-Type`, from
index `key` on; `headerValue[key]` panics when the index is out of range. -/
def contentType (headerValue : List String) : List String → Nat → Except String String
  | [], _ => .ok ""
  | value :: rest, key =>
    if value = "Content-Type" then
      match headerValue[key]? with
      | some v => .ok v
      | none => .error "runtime error: index out of range"
    else contentType headerValue rest (key + 1)

/-- Go: the loop `for key, value := range headerKey { request.Header.Add(value,
headerValue[key]) }`, from index `key` on. -/
def addHeaders (headerValue : List String) :
    List String → Nat → List (String × String) → Except String (List (String × String))
  | [], _, header => .ok header
  | value :: rest, key, header =>
    match headerValue[key]? with
    | some v => addHeaders headerValue rest (key + 1) (header ++ [(value, v)])
    | none => .error "runtime error: index out of range"

/-- Go: `str[:len(str)-1]`, which panics on the empty string. -/
def dropLastByte (str : String) : Except String String :=
  if str.length = 0 then .error "runtime error: slice bounds out of range [:-1]"
  else .ok (String.mk str.data.dropLast)

/-- Go: lines 139 to 163 of `do`, once the request is built: the headers, the cookies, the
round trip. -/
def finish (lib : Lib U F X) (request : Request) (headerKey headerValue cookies : List String) :
    Except String (Option (List UInt8) × Option String) :=
  match addHeaders headerValue headerKey 0 request.Header with
  | .error msg => .error msg
  | .ok header =>
    match lib.Do { request with Header := header, Cookies := request.Cookies ++ cookies } with
    | .error err => .ok (none, some err)
    | .ok dataBytes => .ok (some dataBytes, none)

/-- Go: `do`.  The result is a panic, or the pair that is returned (data, error). -/
def do_ (lib : Lib U F X) (method url : String) (headerKey headerValue : List String)
    (body : Body F X) (cookies : List String) :
    Except String (Option (List UInt8) × Option String) :=
  if method = "GET" then
    match lib.Parse url with
    | .error err => .ok (none, some err)
    | .ok Url =>
      match body with
      | .map m =>
        match queryParams lib m [] with
        | none => .ok (none, some "invalid query")
        | some params =>
          -- `Url.RawQuery = params.Encode()`; `Url` is not read again
          let _Url1 := lib.setRawQuery Url (lib.Encode params)
          match lib.NewRequest method url none with
          | some err => .ok (none, some err)
          | none => finish lib { Method := method, URL := url } headerKey headerValue cookies
      | _ => .ok (none, some "get method body must be map[string]interface")
  else
    match contentType headerValue headerKey 0 with
    | .error msg => .error msg
    | .ok ct =>
      if ct = "" then .ok (none, some "invalid content-type")
      else if ct = "application/x-www-form-urlencoded" then
        match body with
        | .map m =>
          match formPairs lib m "" with
          | none => .ok (none, some "invalid params")
          | some str =>
            match dropLastByte str with
            | .error msg => .error msg
            | .ok text =>
              match lib.NewRequest method url (some text) with
              | some err => .ok (none, some err)
              | none =>
                finish lib { Method := method, URL := url, Body := some text } headerKey
                  headerValue cookies
        | _ =>
          .ok (none, some "application/x-www-form-urlencoded body must be map[string]interface")
      else if ct = "application/json" then
        match lib.Marshal body with
        | .error err => .ok (none, some err)
        | .ok jsonBody =>
          match lib.NewRequest method url (some jsonBody) with
          | some err => .ok (none, some err)
          | none =>
            finish lib { Method := method, URL := url, Body := some jsonBody } headerKey
              headerValue cookies
      else .ok (none, some "invalid header")

end utils

namespace client.lifecycle

/-- Where the main goroutine is in lines 305 to 318 of `Connect`: at `<-c.stopCh`, at
`c.isStop = true`, at the send on `c.cancelHeartbeatTicker`, at the send on
`c.cancelPongTimer`, at `c.heartbeatTicker.Stop()` and `c.Close()`, at `c.OnClose(c)`, at
`c.reconnecting()`, or past them. -/
inductive Main where
  | waitStop
  | setStop
  | cancelHeartbeat
  | cancelPong
  | close
  | onClose
  | reconnecting
  | returned
  deriving DecidableEq

/-- Where the heartbeat goroutine (lines 244 to 255) is: at its `select`, or returned.  No
heartbeat tick is due in the window that is modelled. -/
inductive Heartbeat where
  | select
  | returned
  deriving DecidableEq

/-- Where the pong watchdog (lines 261 to 272) is: at its `select`, at `if !c.isStop`, at
the send `c.stopCh <- struct{}{}`, or returned. -/
inductive PongTimer where
  | select
  | check
  | send
  | returned
  deriving DecidableEq

/-- Where the read loop (lines 282 to 303) is: in `c.Conn.ReadMessage()`, at `if !c.isStop`
after a read error, at the send `c.stopCh <- struct{}{}`, or returned (`break`). -/
inductive Read where
  | read
  | check
  | send
  | returned
  deriving DecidableEq

/-- The state of an open connection: where each goroutine is, the field `c.isStop`, whether
the pong deadline has expired (a value waits in `c.pongTimer.C`), whether the next
`ReadMessage` returns an error, and how often OnClose and the reconnect policy have run. -/
structure State where
  main : Main := Main.waitStop
  heartbeat : Heartbeat := Heartbeat.select
  pongTimer : PongTimer := PongTimer.select
  read : Read := Read.read
  isStop : Bool := false
  expired : Bool := false
  readError : Bool := false
  closes : Nat := 0
  reconnects : Nat := 0
  deriving DecidableEq

/-- The goroutines of an open connection. -/
inductive Goroutine where
  | main
  | heartbeat
  | pongTimer
  | read
  deriving DecidableEq

/-- One step of a goroutine, `none` when it is blocked.  `stopCh`, `cancelHeartbeatTicker`
and `cancelPongTimer` are unbuffered (`make(chan struct{})`): a send is one step of sender
and receiver together, possible when the sender is at the send and the receiver at the
receive; it is taken as a step of the sender. -/
def step : Goroutine → State → Option State
  | .main, s =>
    match s.main with
    | .waitStop => none
    | .setStop => some { s with isStop := true, main := Main.cancelHeartbeat }
    | .cancelHeartbeat =>
      if s.heartbeat = Heartbeat.select then
        some { s with heartbeat := Heartbeat.returned, main := Main.cancelPong }
      else none
    | .cancelPong =>
      if s.pongTimer = PongTimer.select then
        some { s with pongTimer := PongTimer.returned, main := Main.close }
      else none
    | .close => some { s with main := Main.onClose }
    | .onClose => some { s with closes := s.closes + 1, main := Main.reconnecting }
    | .reconnecting => some { s with reconnects := s.reconnects + 1, main := Main.returned }
    | .returned => none
  | .heartbeat, _ => none
  | .pongTimer, s =>
    match s.pongTimer with
    | .select => if s.expired then some { s with expired := false, pongTimer := PongTimer.check }
      else none
    | .check =>
      if !s.isStop then some { s with pongTimer := PongTimer.send }
      else some { s with pongTimer := PongTimer.select }
    | .send =>
      if s.main = Main.waitStop then
        some { s with main := Main.setStop, pongTimer := PongTimer.select }
      else none
    | .returned => none
  | .read, s =>
    match s.read with
    | .read => if s.readError then some { s with readError := false, read := Read.check }
      else none
    | .check =>
      if !s.isStop then some { s with read := Read.send }
      else some { s with read := Read.returned }
    | .send =>
      if s.main = Main.waitStop then
        some { s with main := Main.setStop, read := Read.returned }
      else none
    | .returned => none

/-- The goroutines scheduled in the order of the list; a blocked goroutine that is scheduled
stays where it is. -/
def run : List Goroutine → State → State
  | [], s => s
  | g :: rest, s => run rest ((step g s).getD s)

/-- No goroutine can take a step. -/
def stuck (s : State) : Bool :=
  (step Goroutine.main s).isNone && (step Goroutine.heartbeat s).isNone
    && (step Goroutine.pongTimer s).isNone && (step Goroutine.read s).isNone

/-- An open connection on which the pong deadline has expired and the read fails. -/
def bothTriggers : State := { expired := true, readError := true }

end client.lifecycle

namespace runtime

/-- A Go slice value: the address of its backing array, its length and its capacity (the
slices of hooks always start at the first element of their array).  The nil slice has
length and capacity 0. -/
structure Slice where
  array : Nat := 0
  len : Nat := 0
  cap : Nat := 0
  deriving DecidableEq

/-- The backing arrays allocated so far, by address; of each array the elements written so
far. -/
abbrev Heap (α : Type) : Type := List (List α)

/-- The elements of a slice. -/
def Slice.read {α : Type} (s : Slice) (h : Heap α) : List α :=
  (h.getD s.array []).take s.len

/-- The capacity that the Go runtime (`growslice`) gives the new array when a slice of
capacity `cap` has to hold `needed` elements, for slices of fewer than 256 elements:
`needed` if that is more than twice the old capacity, else twice the old capacity (the
rounding up to an allocation size class does not change 1, 2, 4, 8 for elements of pointer
size). -/
def growslice (cap needed : Nat) : Nat :=
  if needed > 2 * cap then needed else 2 * cap

/-- Go: `append(s, xs...)`.  When the capacity suffices the elements are written into the
backing array of `s`, after its length, and the result shares that array; otherwise a new
array is allocated and the elements of `s` are copied. -/
def append {α : Type} (h : Heap α) (s : Slice) (xs : List α) : Heap α × Slice :=
  if s.len + xs.length ≤ s.cap then
    (h.set s.array
      ((h.getD s.array []).take s.len ++ xs ++ (h.getD s.array []).drop (s.len + xs.length)),
      { s with len := s.len + xs.length })
  else
    (h ++ [s.read h ++ xs],
      { array := h.length, len := s.len + xs.length,
        cap := growslice s.cap (s.len + xs.length) })

end runtime

namespace http.heap

/-- The memory that registration works on: the backing arrays of the `[]before` and
`[]after` slices, and the package variables `globalBefore`, `globalAfter`. -/
structure Memory (B A : Type) where
  before : runtime.Heap B := []
  after : runtime.Heap A := []
  globalBefore : runtime.Slice := {}
  globalAfter : runtime.Slice := {}

/-- Go: `type group struct`, its hook lists as slices. -/
structure group where
  path : String := ""
  before : runtime.Slice := {}
  after : runtime.Slice := {}
  deriving DecidableEq

/-- Go: `type route struct`, its hook lists as slices. -/
structure route where
  path : String := ""
  method : String := ""
  before : runtime.Slice := {}
  after : runtime.Slice := {}
  passBefore : Bool := false
  forceBefore : Bool := false
  passAfter : Bool := false
  forceAfter : Bool := false
  group : Option heap.group := none

/-- Go: `type node struct`, its hook lists as slices. -/
structure node (F : Type) where
  info : String
  route : String
  method : String
  function : F
  before : runtime.Slice
  after : runtime.Slice

variable {T B A F : Type}

/-- Go: `SetBefore`. -/
def SetBefore (m : Memory B A) (before : List B) : Memory B A :=
  match runtime.append m.before m.globalBefore before with
  | (h, s) => { m with before := h, globalBefore := s }

/-- Go: `SetAfter`. -/
def SetAfter (m : Memory B A) (after : List A) : Memory B A :=
  match runtime.append m.after m.globalAfter after with
  | (h, s) => { m with after := h, globalAfter := s }

/-- Go: `Router.Group`. -/
def Group (path : String) : group := { path := path }

/-- Go: `group.Before`. -/
def group.Before (g : group) (m : Memory B A) (before : List B) : Memory B A × group :=
  match runtime.append m.before g.before before with
  | (h, s) => ({ m with before := h }, { g with before := s })

/-- Go: `group.After`. -/
def group.After (g : group) (m : Memory B A) (after : List A) : Memory B A × group :=
  match runtime.append m.after g.after after with
  | (h, s) => ({ m with after := h }, { g with after := s })

/-- Go: `RouteHandler.Route`, for the handler of the group `g`. -/
def Route (g : group) (method path : String) : route :=
  { path := path, method := method, group := some g }

/-- Go: `route.Before`. -/
def route.Before (r : route) (m : Memory B A) (before : List B) : Memory B A × route :=
  match runtime.append m.before r.before before with
  | (h, s) => ({ m with before := h }, { r with before := s })

/-- Go: `route.After`. -/
def route.After (r : route) (m : Memory B A) (after : List A) : Memory B A × route :=
  match runtime.append m.after r.after after with
  | (h, s) => ({ m with after := h }, { r with after := s })

/-- Go: `route.Handler`, on the memory and the router; the appends of lines 179, 187, 195
and 196 in the order of the source. -/
def route.Handler (ops : tire.Ops T (node F)) (file : String) (line : Int) (r : route)
    (fn : F) (m : Memory B A) (router : Router T) :
    Except String Unit × Memory B A × Router T :=
  if r.path = "" ∨ r.method = "" then
    (.error "route path or method can not empty", m, router)
  else
    match r.group with
    | none =>
      (.error "runtime error: invalid memory address or nil pointer dereference", m, router)
    | some g =>
      let method := strings.ToUpper r.method
      let path := router.formatPath (g.path ++ r.path)
      let tire0 : T := match router.tire with
        | none => ops.new
        | some t => t
      match runtime.append m.before g.before (r.before.read m.before) with
      | (hb1, before0) =>
        let before1 : runtime.Slice := if r.passBefore then {} else before0
        let before2 : runtime.Slice := if r.forceBefore then r.before else before1
        match runtime.append m.after g.after (r.after.read m.after) with
        | (ha1, after0) =>
          let after1 : runtime.Slice := if r.passAfter then {} else after0
          let after2 : runtime.Slice := if r.forceAfter then r.after else after1
          match runtime.append hb1 before2 (m.globalBefore.read hb1) with
          | (hb2, before3) =>
            match runtime.append ha1 after2 (m.globalAfter.read ha1) with
            | (ha2, after3) =>
              let hba : node F :=
                { info := file ++ ":" ++ toString line
                  function := fn
                  before := before3
                  after := after3
                  method := method
                  route := path }
              (.ok (), { m with before := hb2, after := ha2 },
                { router with tire := some (ops.Insert tire0 path hba) })

/-- The before hooks of the record registered under `path`, read from the memory. -/
def beforeOf (m : Memory B A) (router : Router (List (String × node F))) (path : String) :
    Option (List B) :=
  match router.tire with
  | none => none
  | some t => (tire.lookup t path).map (fun n => n.Data.before.read m.before)

end http.heap

/-! ## Concrete inputs -/

namespace demo

/-- A group `/g` with one before hook `1` and one after hook `10` (hooks are numbered). -/
def g : http.group Nat Nat := (({} : http.group Nat Nat).Route "/g" |>.Before [1]).After [10]

/-- The route handler of the group `g`. -/
def h : http.RouteHandler Nat Nat := { group := some g }

/-- An empty router over the trie of literal paths. -/
def router : http.Router (List (String × http.node Nat Nat Nat)) := {}

/-- The same router, ignoring case. -/
def routerIC : http.Router (List (String × http.node Nat Nat Nat)) := { IgnoreCase := true }

/-- What is read off a router: path, method, before list and after list of each record. -/
def view (x : Except String Unit × http.Router (List (String × http.node Nat Nat Nat))) :
    Option (List (String × String × List Nat × List Nat)) :=
  x.2.tire.map (List.map (fun e => (e.1, e.2.method, e.2.before, e.2.after)))

/-- A middleware wrapper that logs `s>`, calls `next`, then logs `<s`.  The state is the log
of what ran. -/
def through (s : String) : client.Middle Unit (List String) → client.Middle Unit (List String) :=
  fun next conn stream w => next conn stream (w ++ [s ++ ">"]) ++ ["<" ++ s]

/-- A middleware wrapper that logs `s` and never calls `next`. -/
def stop (s : String) : client.Middle Unit (List String) → client.Middle Unit (List String) :=
  fun _ _ _ w => w ++ [s]

/-- A middleware wrapper that only calls `next`. -/
def pass : client.Middle Unit (List String) → client.Middle Unit (List String) :=
  fun next => next

/-- A hook that logs `s` and returns the error `e`. -/
def hook (s : String) (e : Option String) : client.Hook Unit (List String) :=
  fun _ _ w => (e, w ++ [s])

/-- A record with three before hooks, the second of which fails with `boom`. -/
def failing : client.node Unit (List String) :=
  { Before := [hook "b0" none, hook "b1" (some "boom"), hook "b2" none]
    Function := hook "f" none
    After := [hook "a0" none] }

/-- A websocket router with the one event `/a`. -/
def wsRouter : client.Router Unit (List String) :=
  ⟨fun event => if event = "/a" then some ({ Data := failing }, "/a") else none⟩

/-- A client whose `OnError` logs the error. -/
def wsClient : client.Client Unit (List String) :=
  { OnError := some (fun e w => w ++ ["OnError:" ++ e])
    router := some wsRouter }

/-- A record whose before hooks succeed and whose route function fails with `bad`. -/
def failingFunction : client.node Unit (List String) :=
  { Before := [hook "b0" none, hook "b1" none]
    Function := hook "f" (some "bad")
    After := [hook "a0" none] }

/-- A record whose second after hook fails with `late`. -/
def failingAfter : client.node Unit (List String) :=
  { Before := [hook "b0" none]
    Function := hook "f" none
    After := [hook "a0" none, hook "a1" (some "late"), hook "a2" none] }

/-- A record all of whose hooks succeed. -/
def succeeding : client.node Unit (List String) :=
  { Before := [hook "b0" none]
    Function := hook "f" none
    After := [hook "a0" none, hook "a1" none] }

/-- A websocket router with the events `/a`, `/f`, `/late` and `/ok`. -/
def wsRouter2 : client.Router Unit (List String) :=
  ⟨fun event =>
    if event = "/a" then some ({ Data := failing }, "/a")
    else if event = "/f" then some ({ Data := failingFunction }, "/f")
    else if event = "/late" then some ({ Data := failingAfter }, "/late")
    else if event = "/ok" then some ({ Data := succeeding }, "/ok")
    else none⟩

/-- A protocol that reads the kind off the first byte: 1 is Ping, 2 is Pong, 3 is a Bin
frame for the event `/f` with request id 7, anything else is Unknown. -/
def protocol : websocket.Protocol :=
  { Encode := fun _ _ _ body => body
    Decode := fun message =>
      match message.map UInt8.toNat with
      | 1 :: _ => (socket.MessageType.Ping, 0, "", [])
      | 2 :: _ => (socket.MessageType.Pong, 0, "", [])
      | 3 :: _ => (socket.MessageType.Bin, 7, "/f", message.drop 1)
      | _ => (socket.MessageType.Unknown, 0, "", []) }

/-- A connected client: every callback logs its name, the Ping handler fails with `ping
failed`, the Pong handler succeeds. -/
def wsOpen : client.Client Unit (List String) :=
  { Addr := "127.0.0.1:8080"
    OnOpen := some (fun _ w => w ++ ["OnOpen"])
    OnClose := some (fun _ w => w ++ ["OnClose"])
    OnError := some (fun e w => w ++ ["OnError:" ++ e])
    OnMessage := some (fun _ _ _ w => w ++ ["OnMessage"])
    OnUnknown := some (fun _ _ _ w => w ++ ["OnUnknown"])
    PingHandler := some (fun _ _ w => (some "ping failed", w ++ ["Ping"]))
    PongHandler := some (fun _ _ w => (none, w ++ ["Pong"]))
    Protocol := some protocol
    router := some wsRouter2 }

/-- A network on which the handshake succeeds; every call is logged. -/
def net : client.Net (List String) :=
  { Dial := fun url w => (none, w ++ ["Dial " ++ url])
    WriteMessage := fun _ w => (none, w ++ ["WriteMessage"])
    Reset := fun _ w => w ++ ["Reset"]
    DefaultProtocol := protocol }

/-- Library stand-ins for `http/client`: a URL is its text before the query and its raw
query, a request is its method, URL and body; floats are numbered; other values are their
`%v` text. -/
def clientLib : http.client.Lib (String × String) (String × String × Option String) Nat String :=
  { Parse := fun u => if u = "" then .error "empty url" else .ok (u, "")
    RawQuery := fun u => u.2
    setRawQuery := fun u q => (u.1, q)
    URLString := fun u => if u.2 = "" then u.1 else u.1 ++ "?" ++ u.2
    Encode := fun v => "&".intercalate (v.map (fun e => e.1 ++ "=" ++ e.2))
    FormatFloat := fun f => toString f
    Sprintf := fun x => x
    NewRequestWithContext := fun m u b =>
      if m = "" then .error "invalid method" else .ok (m, u, b) }

/-- Library stand-ins for `utils`: the round trip answers with the bytes of the request
body. -/
def utilsLib : utils.Lib (String × String) Nat String :=
  { Parse := fun u => if u = "" then .error "empty url" else .ok (u, "")
    setRawQuery := fun u q => (u.1, q)
    Encode := fun v => "&".intercalate (v.map (fun e => e.1 ++ "=" ++ e.2))
    FormatFloat := fun f => toString f
    NewRequest := fun m _ _ => if m = "" then some "invalid method" else none
    Marshal := fun _ => .ok "{}"
    Do := fun request => .ok ((request.Body.getD "").toUTF8.toList) }

/-- Library stand-ins for `utils` whose round trip answers with the bytes of the URL of the
request it is given. -/
def echoLib : utils.Lib (String × String) Nat String :=
  { utilsLib with Do := fun request => .ok request.URL.toUTF8.toList }

/-- A store with the keys `a`, `b`, `a`. -/
def store : http.Store :=
  (({} : http.Store).Add "a" ["1"] |>.Add "b" ["2", "3"]).Add "a" ["4"]

/-- A wrapper whose call logs `build s`, and whose `Middle` logs `s>`, calls `next`, then
logs `<s`. -/
def building (s : String) : client.Wrapper Unit (List String) :=
  fun next w => (fun conn stream w1 => next conn stream (w1 ++ [s ++ ">"]) ++ ["<" ++ s],
    w ++ ["build " ++ s])

/-- A wrapper whose call logs `build s`, and whose `Middle` logs `s` and never calls
`next`. -/
def stopping (s : String) : client.Wrapper Unit (List String) :=
  fun _ w => (fun _ _ w1 => w1 ++ [s], w ++ ["build " ++ s])

/-- The registration state: outcome of the last call, memory, router. -/
abbrev Registered : Type :=
  Except String Unit × http.heap.Memory Nat Nat
    × http.Router (List (String × http.heap.node Nat))

/-- Go: `router.Group("/g").Before(h1).Before(h2).Before(h3)`, on the memory `m`. -/
def heapGroup (m : http.heap.Memory Nat Nat) : http.heap.Memory Nat Nat × http.heap.group :=
  match (http.heap.Group "/g").Before m [1] with
  | (m1, g1) =>
    match g1.Before m1 [2] with
    | (m2, g2) => g2.Before m2 [3]

/-- Go: `handler.Get("/a").Before(h4).Handler(fa)` in the group of `heapGroup`, no global
hooks. -/
def heapA : Registered :=
  match (http.heap.Route (heapGroup {}).2 "GET" "/a").Before (heapGroup {}).1 [4] with
  | (m, r) => r.Handler (tire.literal _) "main.go" 7 0 m {}

/-- Go: then `handler.Get("/b").Before(h5).Handler(fb)` in the same group. -/
def heapAB : Registered :=
  match (http.heap.Route (heapGroup {}).2 "GET" "/b").Before heapA.2.1 [5] with
  | (m, r) => r.Handler (tire.literal _) "main.go" 8 0 m heapA.2.2

/-- Go: `SetBefore(h9)`, the same group, then `handler.Get("/a").Handler(fa)`. -/
def heapGlobalA : Registered :=
  (http.heap.Route (heapGroup (http.heap.SetBefore {} [9])).2 "GET" "/a").Handler
    (tire.literal _) "main.go" 7 0 (heapGroup (http.heap.SetBefore {} [9])).1 {}

/-- Go: then `handler.Get("/b").Before(h5).Handler(fb)` in the same group. -/
def heapGlobalAB : Registered :=
  match (http.heap.Route (heapGroup (http.heap.SetBefore {} [9])).2 "GET" "/b").Before
      heapGlobalA.2.1 [5] with
  | (m, r) => r.Handler (tire.literal _) "main.go" 8 0 m heapGlobalA.2.2

end demo

/-! ## Registration and lookup in the HTTP router -/

namespace http

variable {T B A F : Type}

theorem Handler_registers (ops : tire.Ops T (node B A F)) (globalBefore : List B)
    (globalAfter : List A) (file : String) (line : Int) (r : route B A) (g : group B A)
    (fn : F) (router : Router T) (hpath : r.path ≠ "") (hmethod : r.method ≠ "")
    (hgroup : r.group = some g) :
    r.Handler ops globalBefore globalAfter file line fn router =
      (.ok (), { router with tire := some (ops.Insert (router.tire.getD ops.new)
        (router.formatPath (g.path ++ r.path))
        (r.hba globalBefore globalAfter file line g fn
          (router.formatPath (g.path ++ r.path)))) }) := by
  unfold route.Handler
  rw [if_neg (by simp [hpath, hmethod]), hgroup]
  cases h : router.tire <;> simp

theorem Handler_panics (ops : tire.Ops T (node B A F)) (globalBefore : List B)
    (globalAfter : List A) (file : String) (line : Int) (r : route B A)
    (fn : F) (router : Router T) (hempty : r.path = "" ∨ r.method = "") :
    r.Handler ops globalBefore globalAfter file line fn router =
      (.error "route path or method can not empty", router) := by
  unfold route.Handler
  rw [if_pos hempty]

theorem getRoute_upper (ops : tire.Ops T (node B A F)) (router : Router T)
    (m1 m2 path : String) (h : strings.ToUpper m1 = strings.ToUpper m2) :
    router.getRoute ops m1 path = router.getRoute ops m2 path := by
  unfold Router.getRoute
  rw [h]

theorem getRoute_method (ops : tire.Ops T (node B A F)) (router : Router T)
    (m path : String) (t : tire.Tire (node B A F)) (pathB : String)
    (h : router.getRoute ops m path = some (t, pathB)) :
    t.Data.method = strings.ToUpper m ∧ pathB = router.formatPath path := by
  unfold Router.getRoute at h
  cases htire : router.tire with
  | none => simp [htire] at h
  | some tr =>
    simp only [htire] at h
    cases hget : ops.GetValue tr (router.formatPath path) with
    | none => simp [hget] at h
    | some n =>
      simp only [hget] at h
      by_cases hm : n.Data.method = strings.ToUpper m
      · simp [hm] at h
        rw [← h.1, ← h.2]
        exact ⟨hm, rfl⟩
      · simp [hm] at h

theorem getRoute_found (ops : tire.Ops T (node B A F)) (router : Router T) (tr : T)
    (m path : String) (n : tire.Tire (node B A F)) (htire : router.tire = some tr)
    (hget : ops.GetValue tr (router.formatPath path) = some n)
    (hm : n.Data.method = strings.ToUpper m) :
    router.getRoute ops m path = some (n, router.formatPath path) := by
  unfold Router.getRoute
  simp [htire, hget, hm]

theorem getRoute_lower (ops : tire.Ops T (node B A F)) (router : Router T)
    (m q1 q2 : String) (hic : router.IgnoreCase = true)
    (h : strings.ToLower q1 = strings.ToLower q2) :
    router.getRoute ops m q1 = router.getRoute ops m q2 := by
  unfold Router.getRoute Router.formatPath
  simp only [hic, if_true, h]

theorem literal_returnsInserted (D : Type) : (tire.literal D).ReturnsInserted := by
  intro t k d
  exact ⟨⟨d⟩, by simp [tire.literal, tire.lookup], rfl⟩

/-- C2 (as stated, refuted): with group before `[1]`, global before `[9]` and
`Before(3).ForceBefore()` the record's before list is `[3, 9]`, not `[3]`: the global before
hook is not suppressed. -/
theorem force_before_keeps_global_counterexample :
    demo.view (((demo.h.Get "/a").Before [3]).ForceBefore.Handler (tire.literal _) [9] []
      "main.go" 7 0 demo.router) = some [("/g/a", "GET", [3, 9], [10])]
    ∧ ((((demo.h.Get "/a").Before [3]).ForceBefore.Handler (tire.literal _) [9] []
      "main.go" 7 (0 : Nat) demo.router).2.tire.map (List.map (fun e => e.2.before)))
        ≠ some [[3]] := by
  decide

/-- C2 (amended): a route registered with `Before(C...).ForceBefore()` gets a record whose
before list is exactly `C ++ globalBefore`: the group's before hooks are suppressed, the
global before hooks are still appended after `C`. -/
theorem handler_force_before (ops : tire.Ops T (node B A F)) (globalBefore : List B)
    (globalAfter : List A) (file : String) (line : Int) (h : RouteHandler B A)
    (g : group B A) (method path : String) (C : List B) (fn : F) (router : Router T)
    (hpath : path ≠ "") (hmethod : method ≠ "") (hgroup : h.group = some g) :
    ((h.Route method path).Before C).ForceBefore.Handler ops globalBefore globalAfter file line
        fn router =
      (.ok (), { router with tire := some (ops.Insert (router.tire.getD ops.new)
        (router.formatPath (g.path ++ path))
        (((h.Route method path).Before C).ForceBefore.hba globalBefore globalAfter file line g
          fn (router.formatPath (g.path ++ path)))) })
    ∧ (((h.Route method path).Before C).ForceBefore.hba globalBefore globalAfter file line g fn
          (router.formatPath (g.path ++ path))).before = C ++ globalBefore := by
  refine ⟨Handler_registers ops globalBefore globalAfter file line _ g fn router hpath hmethod
    hgroup, ?_⟩
  simp [route.hba, route.ForceBefore, route.Before, RouteHandler.Route]

theorem handler_force_before_witness :
    demo.view (((demo.h.Route "GET" "/a").Before [3]).ForceBefore.Handler (tire.literal _) [9]
      [] "main.go" 7 0 demo.router) = some [("/g/a", "GET", [3, 9], [10])]
    ∧ ((((demo.h.Route "GET" "/a").Before [3]).ForceBefore.hba [9] [] "main.go" 7 demo.g 0
        (demo.router.formatPath (demo.g.path ++ "/a")) : node Nat Nat Nat).before
        = [3] ++ [9]) := by
  have key := handler_force_before (tire.literal (node Nat Nat Nat)) [9] [] "main.go" 7 demo.h
    demo.g "GET" "/a" [3] 0 demo.router (by decide) (by decide) rfl
  refine ⟨?_, key.2⟩
  rw [key.1]
  decide

/-- C3 (as stated, refuted): with group before `[1]`, route before `[2]`, global before `[3]`
and `PassBefore()` the record's before list is `[3]`, not `[2, 3]`: the route's own before
hook is dropped together with the group's (and likewise on the after side). -/
theorem pass_before_drops_own_hooks_counterexample :
    demo.view ((((demo.h.Get "/a").Before [2]).After [20]).PassBefore.PassAfter.Handler
      (tire.literal _) [3] [30] "main.go" 7 0 demo.router) = some [("/g/a", "GET", [3], [30])]
    ∧ (((((demo.h.Get "/a").Before [2]).After [20]).PassBefore.PassAfter.Handler
      (tire.literal _) [3] [30] "main.go" 7 (0 : Nat) demo.router).2.tire.map
        (List.map (fun e => (e.2.before, e.2.after)))) ≠ some [([2, 3], [20, 30])] := by
  decide

/-- C3 (amended): for a route registered with PassBefore set and ForceBefore not set, the
group's before hooks and the route's own before hooks are both dropped: the record's before
list is exactly the global before hooks, whatever the group's and the route's before lists
are; symmetrically, with PassAfter set and ForceAfter not set the after list is exactly the
global after hooks. -/
theorem handler_pass_before (ops : tire.Ops T (node B A F)) (globalBefore : List B)
    (globalAfter : List A) (file : String) (line : Int) (r : route B A) (g : group B A)
    (fn : F) (router : Router T) (hpath : r.path ≠ "") (hmethod : r.method ≠ "")
    (hgroup : r.group = some g) :
    r.Handler ops globalBefore globalAfter file line fn router =
      (.ok (), { router with tire := some (ops.Insert (router.tire.getD ops.new)
        (router.formatPath (g.path ++ r.path))
        (r.hba globalBefore globalAfter file line g fn
          (router.formatPath (g.path ++ r.path)))) })
    ∧ (r.passBefore = true → r.forceBefore = false →
        (r.hba globalBefore globalAfter file line g fn
          (router.formatPath (g.path ++ r.path))).before = globalBefore)
    ∧ (r.passAfter = true → r.forceAfter = false →
        (r.hba globalBefore globalAfter file line g fn
          (router.formatPath (g.path ++ r.path))).after = globalAfter) := by
  refine ⟨Handler_registers ops globalBefore globalAfter file line r g fn router hpath hmethod
    hgroup, ?_, ?_⟩
  · intro hp hf
    simp [route.hba, hp, hf]
  · intro hp hf
    simp [route.hba, hp, hf]

theorem handler_pass_before_witness :
    demo.view ((((demo.h.Get "/a").Before [2]).After [20]).PassBefore.PassAfter.Handler
      (tire.literal _) [3] [30] "main.go" 7 0 demo.router) = some [("/g/a", "GET", [3], [30])]
    ∧ (((((demo.h.Get "/a").Before [2]).After [20]).PassBefore.PassAfter.hba [3] [30]
        "main.go" 7 demo.g 0 (demo.router.formatPath (demo.g.path ++ "/a")) :
          node Nat Nat Nat).before = [3])
    ∧ (((((demo.h.Get "/a").Before [2]).After [20]).PassBefore.PassAfter.hba [3] [30]
        "main.go" 7 demo.g 0 (demo.router.formatPath (demo.g.path ++ "/a")) :
          node Nat Nat Nat).after = [30]) := by
  have key := handler_pass_before (tire.literal (node Nat Nat Nat)) [3] [30] "main.go" 7
    ((((demo.h.Get "/a").Before [2]).After [20]).PassBefore.PassAfter) demo.g 0 demo.router
    (by decide) (by decide) rfl
  refine ⟨?_, key.2.1 rfl rfl, key.2.2 rfl rfl⟩
  rw [key.1]
  decide

/-- C4: `route.Handler` panics whenever the route's path or its method is empty, and then
the router (its trie included) is unchanged; when both are non-empty (and the route has its
group) it returns normally, having inserted exactly one record, under
`formatPath(group.path + route.path)`. -/
theorem handler_panics_or_inserts (ops : tire.Ops T (node B A F)) (globalBefore : List B)
    (globalAfter : List A) (file : String) (line : Int) (r : route B A) (fn : F)
    (router : Router T) :
    ((r.path = "" ∨ r.method = "") →
      r.Handler ops globalBefore globalAfter file line fn router =
        (.error "route path or method can not empty", router))
    ∧ (r.path ≠ "" → r.method ≠ "" → ∀ g : group B A, r.group = some g →
      r.Handler ops globalBefore globalAfter file line fn router =
        (.ok (), { router with tire := some (ops.Insert (router.tire.getD ops.new)
          (router.formatPath (g.path ++ r.path))
          (r.hba globalBefore globalAfter file line g fn
            (router.formatPath (g.path ++ r.path)))) })) :=
  ⟨Handler_panics ops globalBefore globalAfter file line r fn router,
   fun hpath hmethod g hgroup =>
    Handler_registers ops globalBefore globalAfter file line r g fn router hpath hmethod hgroup⟩

theorem handler_panics_or_inserts_witness :
    ((demo.h.Route "" "/a").Handler (tire.literal (node Nat Nat Nat)) [3] [30] "main.go" 7 0
        demo.router = (.error "route path or method can not empty", demo.router))
    ∧ ((demo.h.Route "GET" "").Handler (tire.literal (node Nat Nat Nat)) [3] [30] "main.go" 7 0
        demo.router = (.error "route path or method can not empty", demo.router))
    ∧ demo.view ((demo.h.Route "GET" "/a").Handler (tire.literal _) [3] [30] "main.go" 7 0
        demo.router) = some [("/g/a", "GET", [1, 3], [10, 30])] := by
  refine ⟨(handler_panics_or_inserts _ _ _ _ _ _ _ _).1 (by decide),
    (handler_panics_or_inserts _ _ _ _ _ _ _ _).1 (by decide), ?_⟩
  rw [(handler_panics_or_inserts (tire.literal (node Nat Nat Nat)) [3] [30] "main.go" 7
    (demo.h.Route "GET" "/a") 0 demo.router).2 (by decide) (by decide) demo.g rfl]
  decide

/-- C5: HTTP method comparison is case-normalized.  A route registered with method `m`
gets a record that stores `ToUpper(m)`; for every router, path and methods `m1`, `m2` with
`ToUpper(m1) = ToUpper(m2)`, `getRoute(m1, p)` and `getRoute(m2, p)` return the same result;
and `getRoute` returns a record only when its stored method equals `ToUpper` of the
requested method. -/
theorem method_case_normalized (ops : tire.Ops T (node B A F)) (globalBefore : List B)
    (globalAfter : List A) (file : String) (line : Int) (r : route B A) (g : group B A)
    (fn : F) (router lookupRouter : Router T) (m1 m2 p : String)
    (hpath : r.path ≠ "") (hmethod : r.method ≠ "") (hgroup : r.group = some g)
    (hupper : strings.ToUpper m1 = strings.ToUpper m2) :
    (r.Handler ops globalBefore globalAfter file line fn router =
      (.ok (), { router with tire := some (ops.Insert (router.tire.getD ops.new)
        (router.formatPath (g.path ++ r.path))
        (r.hba globalBefore globalAfter file line g fn
          (router.formatPath (g.path ++ r.path)))) })
      ∧ (r.hba globalBefore globalAfter file line g fn
          (router.formatPath (g.path ++ r.path))).method = strings.ToUpper r.method)
    ∧ lookupRouter.getRoute ops m1 p = lookupRouter.getRoute ops m2 p
    ∧ (∀ t pathB, lookupRouter.getRoute ops m1 p = some (t, pathB) →
        t.Data.method = strings.ToUpper m1) := by
  refine ⟨⟨Handler_registers ops globalBefore globalAfter file line r g fn router hpath hmethod
    hgroup, rfl⟩, getRoute_upper ops lookupRouter m1 m2 p hupper, ?_⟩
  intro t pathB h
  exact (getRoute_method ops lookupRouter m1 p t pathB h).1

theorem method_case_normalized_witness :
    (demo.view ((demo.h.Route "get" "/a").Handler (tire.literal _) [3] [30] "main.go" 7 0
        demo.router) = some [("/g/a", "GET", [1, 3], [10, 30])]
      ∧ ((demo.h.Route "get" "/a").hba [3] [30] "main.go" 7 demo.g 0
          (demo.router.formatPath (demo.g.path ++ "/a")) : node Nat Nat Nat).method
          = strings.ToUpper "get")
    ∧ ((demo.h.Route "get" "/a").Handler (tire.literal (node Nat Nat Nat)) [3] [30] "main.go"
          7 0 demo.router).2.getRoute (tire.literal _) "Get" "/g/a"
        = ((demo.h.Route "get" "/a").Handler (tire.literal (node Nat Nat Nat)) [3] [30]
          "main.go" 7 0 demo.router).2.getRoute (tire.literal _) "gEt" "/g/a"
    ∧ ((((demo.h.Route "get" "/a").Handler (tire.literal (node Nat Nat Nat)) [3] [30] "main.go"
          7 0 demo.router).2.getRoute (tire.literal _) "Get" "/g/a").map
            (fun x => (x.1.Data.method, x.2)) = some ("GET", "/g/a"))
    ∧ ((((demo.h.Route "get" "/a").Handler (tire.literal (node Nat Nat Nat)) [3] [30] "main.go"
          7 0 demo.router).2.getRoute (tire.literal _) "POST" "/g/a").map
            (fun x => (x.1.Data.method, x.2)) = none) := by
  have key := method_case_normalized (tire.literal (node Nat Nat Nat)) [3] [30] "main.go" 7
    (demo.h.Route "get" "/a") demo.g 0 demo.router
    ((demo.h.Route "get" "/a").Handler (tire.literal (node Nat Nat Nat)) [3] [30] "main.go"
          7 0 demo.router).2 "Get" "gEt" "/g/a" (by decide) (by decide) rfl (by decide)
  refine ⟨⟨?_, key.1.2⟩, key.2.1, by decide, by decide⟩
  rw [key.1.1]
  decide

/-- C6: insertion-time and lookup-time path normalization agree.  With IgnoreCase set,
`route.Handler` inserts under `ToLower(group.path + route.path)` and `getRoute` looks up
`ToLower(path)`, so `getRoute(m, q1)` and `getRoute(m, q2)` agree whenever
`ToLower(q1) = ToLower(q2)`, and (on a trie that returns the record inserted under an
identical key) the route registered under `g + p` is found at every case variant of `g + p`;
with IgnoreCase unset `formatPath` is the identity, at insertion and at lookup. -/
theorem ignore_case_agreement (ops : tire.Ops T (node B A F)) (globalBefore : List B)
    (globalAfter : List A) (file : String) (line : Int) (r : route B A) (g : group B A)
    (fn : F) (router : Router T) (m q1 q2 : String)
    (hpath : r.path ≠ "") (hmethod : r.method ≠ "") (hgroup : r.group = some g) :
    (router.IgnoreCase = true →
      r.Handler ops globalBefore globalAfter file line fn router =
        (.ok (), { router with tire := some (ops.Insert (router.tire.getD ops.new)
          (strings.ToLower (g.path ++ r.path))
          (r.hba globalBefore globalAfter file line g fn
            (strings.ToLower (g.path ++ r.path)))) })
      ∧ router.getRoute ops m q1
          = { router with IgnoreCase := false }.getRoute ops m (strings.ToLower q1)
      ∧ (strings.ToLower q1 = strings.ToLower q2 →
          router.getRoute ops m q1 = router.getRoute ops m q2)
      ∧ (ops.ReturnsInserted → strings.ToLower q1 = strings.ToLower (g.path ++ r.path) →
          strings.ToUpper m = strings.ToUpper r.method →
          ∃ t, (r.Handler ops globalBefore globalAfter file line fn router).2.getRoute ops m q1
              = some (t, strings.ToLower q1)
            ∧ t.Data = r.hba globalBefore globalAfter file line g fn
                (strings.ToLower (g.path ++ r.path))))
    ∧ (router.IgnoreCase = false →
      router.formatPath q1 = q1
      ∧ r.Handler ops globalBefore globalAfter file line fn router =
        (.ok (), { router with tire := some (ops.Insert (router.tire.getD ops.new)
          (g.path ++ r.path)
          (r.hba globalBefore globalAfter file line g fn (g.path ++ r.path))) })) := by
  have hreg := Handler_registers ops globalBefore globalAfter file line r g fn router hpath
    hmethod hgroup
  constructor
  · intro hic
    have hfmt : ∀ q, router.formatPath q = strings.ToLower q := by
      intro q
      simp [Router.formatPath, hic]
    refine ⟨by rw [hreg, hfmt], ?_, getRoute_lower ops router m q1 q2 hic, ?_⟩
    · unfold Router.getRoute Router.formatPath
      simp [hic]
    · intro hlaw hq hm
      obtain ⟨n, hn, hdata⟩ := hlaw (router.tire.getD ops.new)
        (strings.ToLower (g.path ++ r.path))
        (r.hba globalBefore globalAfter file line g fn (strings.ToLower (g.path ++ r.path)))
      refine ⟨n, ?_, hdata⟩
      rw [hreg, hfmt]
      have hfmt2 : ∀ q, ({ router with tire := some (ops.Insert (router.tire.getD ops.new)
          (strings.ToLower (g.path ++ r.path))
          (r.hba globalBefore globalAfter file line g fn
            (strings.ToLower (g.path ++ r.path)))) } : Router T).formatPath q
            = strings.ToLower q := by
        intro q
        simp [Router.formatPath, hic]
      rw [← hfmt2 q1]
      apply getRoute_found ops _ _ m q1 n rfl
      · rw [hfmt2, hq]
        exact hn
      · rw [hdata, hm]
        rfl
  · intro hic
    have hfmt : ∀ q, router.formatPath q = q := by
      intro q
      simp [Router.formatPath, hic]
    exact ⟨hfmt q1, by rw [hreg, hfmt]⟩

theorem ignore_case_agreement_witness :
    demo.view ((demo.h.Route "GET" "/Abc").Handler (tire.literal _) [3] [30] "main.go" 7 0
        demo.routerIC) = some [("/g/abc", "GET", [1, 3], [10, 30])]
    ∧ (((demo.h.Route "GET" "/Abc").Handler (tire.literal (node Nat Nat Nat)) [3] [30]
          "main.go" 7 0 demo.routerIC).2.getRoute (tire.literal _) "get" "/G/aBC").map
            (fun x => (x.1.Data.route, x.1.Data.before, x.2))
        = some ("/g/abc", [1, 3], "/g/abc")
    ∧ demo.routerIC.getRoute (tire.literal (node Nat Nat Nat)) "get" "/G/aBC"
        = demo.routerIC.getRoute (tire.literal (node Nat Nat Nat)) "get" "/g/ABC"
    ∧ demo.view ((demo.h.Route "GET" "/Abc").Handler (tire.literal _) [3] [30] "main.go" 7 0
        demo.router) = some [("/g/Abc", "GET", [1, 3], [10, 30])] := by
  have key := ignore_case_agreement (tire.literal (node Nat Nat Nat)) [3] [30] "main.go" 7
    (demo.h.Route "GET" "/Abc") demo.g 0 demo.routerIC "get" "/G/aBC" "/g/ABC" (by decide)
    (by decide) rfl
  have key2 := ignore_case_agreement (tire.literal (node Nat Nat Nat)) [3] [30] "main.go" 7
    (demo.h.Route "GET" "/Abc") demo.g 0 demo.router "get" "/G/aBC" "/g/ABC" (by decide)
    (by decide) rfl
  obtain ⟨hins, _, hagree, hfound⟩ := key.1 rfl
  obtain ⟨t, ht, hdata⟩ := hfound (literal_returnsInserted _) (by decide) (by decide)
  refine ⟨?_, ?_, hagree (by decide), ?_⟩
  · rw [hins]
    decide
  · rw [ht]
    simp only [Option.map_some', hdata]
    decide
  · rw [(key2.2 rfl).2]
    decide

end http

/-! ## The middleware chain and the terminal handler of the websocket client -/

namespace client

variable {κ σ : Type}

theorem wrap_take (c : Client κ σ) :
    ∀ (n : Nat) (next : Middle κ σ), n ≤ c.middle.length →
      c.wrap n next = (c.middle.take n).foldr (fun wrapper inner => wrapper inner) next := by
  intro n
  induction n with
  | zero => intro next _; rfl
  | succ i ih =>
    intro next hi
    have hlt : i < c.middle.length := hi
    rw [Client.wrap, List.getElem?_eq_getElem hlt, List.take_succ,
      List.getElem?_eq_getElem hlt]
    simp only [Option.toList, List.foldr_append, List.foldr_cons, List.foldr_nil]
    exact ih _ (Nat.le_of_lt hlt)

theorem middleware_foldr (c : Client κ σ) (conn : κ) (stream : socket.Stream) (w : σ) :
    c.middleware conn stream w
      = c.middle.foldr (fun wrapper inner => wrapper inner) c.handler conn stream w := by
  unfold Client.middleware
  rw [wrap_take c c.middle.length c.handler (Nat.le_refl _), List.take_length]

theorem foldl_Use_middle (uses : List (List (Middle κ σ → Middle κ σ))) :
    ∀ c : Client κ σ, (uses.foldl Client.Use c).middle = c.middle ++ uses.flatten := by
  induction uses with
  | nil => intro c; simp
  | cons u rest ih =>
    intro c
    rw [List.foldl_cons, ih]
    simp [Client.Use]

theorem hookLoop_congr (c c2 : Client κ σ) (hOnError : c.OnError = c2.OnError) (conn : κ)
    (stream : socket.Stream) :
    ∀ (hooks : List (Hook κ σ)) (w : σ),
      c.hookLoop conn stream hooks w = c2.hookLoop conn stream hooks w := by
  intro hooks
  induction hooks with
  | nil => intro w; rfl
  | cons h0 rest ih =>
    intro w
    rcases hh : h0 conn stream w with ⟨e, w1⟩
    cases e with
    | none => simp [Client.hookLoop, hh, ih]
    | some err => simp [Client.hookLoop, hh, Client.reportError, hOnError]

theorem handler_congr (c c2 : Client κ σ) (hOnError : c.OnError = c2.OnError)
    (hrouter : c.router = c2.router) : c.handler = c2.handler := by
  funext conn stream w
  unfold Client.handler
  simp only [← hrouter, Client.reportError, ← hOnError,
    ← hookLoop_congr c c2 hOnError]

theorem foldr_pass (ws : List (Middle κ σ → Middle κ σ)) (terminal : Middle κ σ)
    (hpass : ∀ wrapper ∈ ws, ∀ next, wrapper next = next) :
    ws.foldr (fun wrapper inner => wrapper inner) terminal = terminal := by
  induction ws with
  | nil => rfl
  | cons x rest ih =>
    rw [List.foldr_cons, ih (fun wrapper hw => hpass wrapper (List.mem_cons_of_mem _ hw))]
    exact hpass x (List.mem_cons_self _ _) terminal

theorem hookLoop_first_error (c : Client κ σ) (conn : κ) (stream : socket.Stream) :
    ∀ (hooks : List (Hook κ σ)) (k : Nat) (hook : Hook κ σ) (err : String) (w : σ),
      hooks[k]? = some hook →
      (∀ i, i < k → ∀ h, hooks[i]? = some h →
        (h conn stream (callAll conn stream (hooks.take i) w)).1 = none) →
      (hook conn stream (callAll conn stream (hooks.take k) w)).1 = some err →
      c.hookLoop conn stream hooks w
        = (false, c.reportError err (callAll conn stream (hooks.take (k + 1)) w)) := by
  intro hooks
  induction hooks with
  | nil => intro k hook err w hk; simp at hk
  | cons h0 rest ih =>
    intro k hook err w hk hfirst hfail
    cases k with
    | zero =>
      simp only [List.getElem?_cons_zero, Option.some.injEq] at hk
      subst hk
      simp only [List.take_zero, callAll] at hfail
      rcases hh : h0 conn stream w with ⟨e, w1⟩
      rw [hh] at hfail
      simp only at hfail
      subst hfail
      simp [Client.hookLoop, callAll, hh]
    | succ j =>
      have h0none := hfirst 0 (Nat.succ_pos j) h0 (List.getElem?_cons_zero ..)
      simp only [List.take_zero, callAll] at h0none
      rcases hh : h0 conn stream w with ⟨e, w1⟩
      rw [hh] at h0none
      simp only at h0none
      subst h0none
      have hk2 : rest[j]? = some hook := by simpa using hk
      have step := ih j hook err w1 hk2
        (fun i hi h hi2 => by
          have := hfirst (i + 1) (Nat.succ_lt_succ hi) h (by simpa using hi2)
          simpa [callAll, hh] using this)
        (by simpa [callAll, hh] using hfail)
      simp [Client.hookLoop, callAll, hh, step]

theorem hookLoop_all_ok (c : Client κ σ) (conn : κ) (stream : socket.Stream) :
    ∀ (hooks : List (Hook κ σ)) (w : σ),
      (∀ (i : Nat) (h : Hook κ σ), hooks[i]? = some h →
        (h conn stream (callAll conn stream (hooks.take i) w)).1 = none) →
      c.hookLoop conn stream hooks w = (true, callAll conn stream hooks w) := by
  intro hooks
  induction hooks with
  | nil => intro w _; rfl
  | cons h0 rest ih =>
    intro w hall
    have h0none := hall 0 h0 List.getElem?_cons_zero
    simp only [List.take_zero, callAll] at h0none
    rcases hh : h0 conn stream w with ⟨e, w1⟩
    rw [hh] at h0none
    simp only at h0none
    subst h0none
    have step := ih w1 (fun i h hi => by
      have := hall (i + 1) h (by simpa using hi)
      simpa [callAll, hh] using this)
    simp [Client.hookLoop, callAll, hh, step]

theorem handler_matched (c : Client κ σ) (router : Router κ σ) (n : Tire κ σ)
    (formatPath : String) (conn : κ) (stream : socket.Stream) (w : σ)
    (hrouter : c.router = some router)
    (hroute : router.getRoute stream.Event = some (n, formatPath)) :
    c.handler conn stream w =
      match c.hookLoop conn (matched stream n formatPath) n.Data.Before w with
      | (false, w1) => w1
      | (true, w1) =>
        match n.Data.Function conn (matched stream n formatPath) w1 with
        | (some err, w2) => c.reportError err w2
        | (none, w2) => (c.hookLoop conn (matched stream n formatPath) n.Data.After w2).2 := by
  unfold Client.handler
  simp only [hrouter, hroute]
  rfl

theorem decodeMessage_decoded (c : Client κ σ) (self : κ) (protocol : websocket.Protocol)
    (messageFrame : Int) (message : List UInt8) (kind : socket.MessageType) (id : Int)
    (route : String) (body : List UInt8) (w : σ) (hprotocol : c.Protocol = some protocol)
    (hdecode : protocol.Decode message = (kind, id, route, body)) :
    c.decodeMessage self messageFrame message w =
      if kind = socket.MessageType.Unknown then
        match c.OnUnknown with
        | some onUnknown =>
          (.ok none, onUnknown self message c.middleware
            (c.notifyMessage self messageFrame message w))
        | none => (.ok none, c.notifyMessage self messageFrame message w)
      else if kind = socket.MessageType.Ping then
        match c.PingHandler with
        | none => (.error nilPanic, c.notifyMessage self messageFrame message w)
        | some pingHandler =>
          (.ok (pingHandler self "" (c.notifyMessage self messageFrame message w)).1,
            (pingHandler self "" (c.notifyMessage self messageFrame message w)).2)
      else if kind = socket.MessageType.Pong then
        match c.PongHandler with
        | none => (.error nilPanic, c.notifyMessage self messageFrame message w)
        | some pongHandler =>
          (.ok (pongHandler self "" (c.notifyMessage self messageFrame message w)).1,
            (pongHandler self "" (c.notifyMessage self messageFrame message w)).2)
      else
        (.ok none, c.middleware self { Event := route, Data := body, ID := id }
          (c.notifyMessage self messageFrame message w)) := by
  unfold Client.decodeMessage
  simp only [hprotocol, hdecode]

theorem defaultPath_fields (c : Client κ σ) :
    c.defaultPath.Addr = c.Addr ∧ c.defaultPath.OnOpen = c.OnOpen
    ∧ c.defaultPath.OnClose = c.OnClose ∧ c.defaultPath.OnError = c.OnError := by
  unfold Client.defaultPath
  by_cases hp : c.Path = "" <;> by_cases hs : c.Scheme = "" <;> simp [hp, hs]

theorem defaultPath_set (c : Client κ σ) (hpath : c.Path ≠ "") (hscheme : c.Scheme ≠ "") :
    c.defaultPath = c := by
  unfold Client.defaultPath
  simp [hpath, hscheme]

theorem defaultDial_fields (net : Net σ) (c : Client κ σ) :
    (c.defaultDial net).Scheme = c.Scheme ∧ (c.defaultDial net).Addr = c.Addr
    ∧ (c.defaultDial net).Path = c.Path
    ∧ (c.defaultDial net).HeartBeatInterval = c.HeartBeatInterval
    ∧ (c.defaultDial net).DailTimeout
        = (if c.DailTimeout = 0 then 2 * time.Second else c.DailTimeout)
    ∧ (c.defaultDial net).WriteBufferSize
        = (if c.WriteBufferSize = 0 then 1024 else c.WriteBufferSize)
    ∧ (c.defaultDial net).ReadBufferSize
        = (if c.ReadBufferSize = 0 then 1024 else c.ReadBufferSize) := by
  unfold Client.defaultDial
  by_cases hd : c.DailTimeout = 0 <;> by_cases hw : c.WriteBufferSize = 0 <;>
    by_cases hr : c.ReadBufferSize = 0 <;> simp [hd, hw, hr]

theorem connect_checked (net : Net σ) (self : κ)
    (again : Option (Client κ σ → σ → Outcome × Client κ σ × σ × List Action))
    (c : Client κ σ) (w : σ) (haddr : c.Addr ≠ "")
    (hnil : c.OnOpen = none ∨ c.OnClose = none ∨ c.OnError = none) :
    Client.connect net self again c w =
      (.panicked (if c.OnOpen.isNone then "OnOpen must set"
        else if c.OnClose.isNone then "OnClose must set" else "OnError must set"),
        c.defaultPath, w, []) := by
  obtain ⟨hA, hO, hC, hE⟩ := defaultPath_fields c
  unfold Client.connect
  simp only [hA, haddr, if_false, hO, hC, hE]
  cases hOpen : c.OnOpen <;> cases hClose : c.OnClose <;> cases hErr : c.OnError <;>
    simp_all

theorem Connect_checked (net : Net σ) (self : κ) (fuel : Nat) (c : Client κ σ) (w : σ)
    (haddr : c.Addr ≠ "")
    (hnil : c.OnOpen = none ∨ c.OnClose = none ∨ c.OnError = none) :
    Client.Connect net self fuel c w =
      (.panicked (if c.OnOpen.isNone then "OnOpen must set"
        else if c.OnClose.isNone then "OnClose must set" else "OnError must set"),
        c.defaultPath, w, []) := by
  cases fuel <;> exact connect_checked net self _ c w haddr hnil

theorem defaultPath_settings (c : Client κ σ) :
    c.defaultPath.HeartBeatInterval = c.HeartBeatInterval
    ∧ c.defaultPath.DailTimeout = c.DailTimeout
    ∧ c.defaultPath.WriteBufferSize = c.WriteBufferSize
    ∧ c.defaultPath.ReadBufferSize = c.ReadBufferSize := by
  unfold Client.defaultPath
  by_cases hp : c.Path = "" <;> by_cases hs : c.Scheme = "" <;> simp [hp, hs]

theorem connect_zero_ticker (net : Net σ) (self : κ)
    (again : Option (Client κ σ → σ → Outcome × Client κ σ × σ × List Action))
    (c : Client κ σ) (w w1 : σ)
    (onOpen onClose : κ → σ → σ) (onError : String → σ → σ) (haddr : c.Addr ≠ "")
    (hOpen : c.OnOpen = some onOpen) (hClose : c.OnClose = some onClose)
    (hError : c.OnError = some onError)
    (hdial : net.Dial (c.defaultPath.Scheme ++ "://" ++ c.Addr ++ c.defaultPath.Path) w
      = (none, w1))
    (hinterval : c.HeartBeatInterval = 0) :
    Client.connect net self again c w =
      (.panicked "non-positive interval for NewTicker",
        { c.defaultPath.defaultDial net with isStop := false }, w1,
        [Action.Dial (c.defaultPath.Scheme ++ "://" ++ c.Addr ++ c.defaultPath.Path)
          (if c.DailTimeout = 0 then 2 * time.Second else c.DailTimeout)
          (if c.WriteBufferSize = 0 then 1024 else c.WriteBufferSize)
          (if c.ReadBufferSize = 0 then 1024 else c.ReadBufferSize)]) := by
  obtain ⟨hA0, hO0, hC0, hE0⟩ := defaultPath_fields c
  obtain ⟨hH0, hD0, hW0, hR0⟩ := defaultPath_settings c
  obtain ⟨hS, hA, hP, hH, hD, hW, hR⟩ := defaultDial_fields net c.defaultPath
  rw [hA0] at hA
  rw [hH0] at hH
  rw [hD0] at hD
  rw [hW0] at hW
  rw [hR0] at hR
  unfold Client.connect
  simp only [hA0, haddr, if_false, hO0, hC0, hE0, hOpen, hClose, hError, hS, hA, hP, hdial,
    hD, hW, hR]
  unfold Client.start
  simp only [hH, hinterval, time.NewTicker, le_refl, if_true, hS, hA, hP, hD, hW, hR]

theorem Connect_zero_ticker (net : Net σ) (self : κ) (fuel : Nat) (c : Client κ σ) (w w1 : σ)
    (onOpen onClose : κ → σ → σ) (onError : String → σ → σ) (haddr : c.Addr ≠ "")
    (hOpen : c.OnOpen = some onOpen) (hClose : c.OnClose = some onClose)
    (hError : c.OnError = some onError)
    (hdial : net.Dial (c.defaultPath.Scheme ++ "://" ++ c.Addr ++ c.defaultPath.Path) w
      = (none, w1))
    (hinterval : c.HeartBeatInterval = 0) :
    Client.Connect net self fuel c w =
      (.panicked "non-positive interval for NewTicker",
        { c.defaultPath.defaultDial net with isStop := false }, w1,
        [Action.Dial (c.defaultPath.Scheme ++ "://" ++ c.Addr ++ c.defaultPath.Path)
          (if c.DailTimeout = 0 then 2 * time.Second else c.DailTimeout)
          (if c.WriteBufferSize = 0 then 1024 else c.WriteBufferSize)
          (if c.ReadBufferSize = 0 then 1024 else c.ReadBufferSize)]) := by
  cases fuel <;>
    exact connect_zero_ticker net self _ c w w1 onOpen onClose onError haddr hOpen hClose
      hError hdial hinterval

/-- C7: for the wrappers `[w1, ..., wn]` registered through `Use` (in registration order),
`Client.middleware(conn, stream)` behaves as `w1(w2(...wn(T)))(conn, stream)`, the right
fold of the wrapper list over the terminal handler `T`, so the first-registered wrapper is
outermost; with no wrappers it is `T(conn, stream)`. -/
theorem middleware_is_right_fold (c : Client κ σ)
    (uses : List (List (Middle κ σ → Middle κ σ))) (conn : κ) (stream : socket.Stream)
    (w : σ) :
    (uses.foldl Client.Use c).middle = c.middle ++ uses.flatten
    ∧ (uses.foldl Client.Use c).middleware conn stream w
        = (c.middle ++ uses.flatten).foldr (fun wrapper inner => wrapper inner)
            (uses.foldl Client.Use c).handler conn stream w
    ∧ ({ c with middle := [] } : Client κ σ).middleware conn stream w
        = ({ c with middle := [] } : Client κ σ).handler conn stream w := by
  refine ⟨foldl_Use_middle uses c, ?_, ?_⟩
  · rw [middleware_foldr, foldl_Use_middle]
  · rw [middleware_foldr]
    rfl

/-- C9: pass-through middleware is transparent.  If every registered wrapper only calls
`next` with the same connection and stream (`w(next) = next`), then for every stream
`Client.middleware` has exactly the effect of `Client.handler` called directly, which is
also what `Client.middleware` does with no middleware registered. -/
theorem middleware_pass_through (c : Client κ σ) (conn : κ) (stream : socket.Stream) (w : σ)
    (hpass : ∀ wrapper ∈ c.middle, ∀ next, wrapper next = next) :
    c.middleware conn stream w = c.handler conn stream w
    ∧ c.middleware conn stream w
        = ({ c with middle := [] } : Client κ σ).middleware conn stream w := by
  have hc : c.middleware conn stream w = c.handler conn stream w := by
    rw [middleware_foldr, foldr_pass c.middle c.handler hpass]
  refine ⟨hc, ?_⟩
  rw [hc, middleware_foldr]
  exact congrFun (congrFun (congrFun
    (handler_congr c ({ c with middle := [] } : Client κ σ) rfl rfl) conn) stream) w

theorem middleware_pass_through_witness :
    ({ demo.wsClient with middle := [demo.pass, demo.pass] } :
        Client Unit (List String)).middleware () { Event := "/a" } []
      = ["b0", "b1", "OnError:boom"]
    ∧ ({ demo.wsClient with middle := [demo.pass, demo.pass] } :
        Client Unit (List String)).middleware () { Event := "/a" } []
      = demo.wsClient.middleware () { Event := "/a" } [] := by
  have key := middleware_pass_through
    ({ demo.wsClient with middle := [demo.pass, demo.pass] } : Client Unit (List String)) ()
    { Event := "/a" } [] (by
      intro wrapper hw next
      simp only [List.mem_cons, List.mem_singleton, List.not_mem_nil, or_false, or_self] at hw
      subst hw
      rfl)
  exact ⟨key.1.trans (by decide), key.2⟩

/-- C10: in `Client.handler` with a matched route (and OnError set), the Before hooks run
in list order and the first one that returns an error aborts the rest: if `Before[k]` is the
first failing hook, the effect of the handler is that of calling exactly `Before[0..k]`, in
order, and then OnError once with that hook's error; the route function, the After hooks and
the later Before hooks are not invoked. -/
theorem handler_before_abort (c : Client κ σ) (router : Router κ σ) (n : Tire κ σ)
    (formatPath : String) (onError : String → σ → σ) (conn : κ) (stream : socket.Stream)
    (w : σ) (k : Nat) (hook : Hook κ σ) (err : String)
    (hrouter : c.router = some router)
    (hroute : router.getRoute stream.Event = some (n, formatPath))
    (honError : c.OnError = some onError)
    (hk : n.Data.Before[k]? = some hook)
    (hfirst : ∀ i, i < k → ∀ h, n.Data.Before[i]? = some h →
      (h conn { stream with Params := { Keys := n.Keys, Values := n.ParseParams formatPath } }
        (callAll conn
          { stream with Params := { Keys := n.Keys, Values := n.ParseParams formatPath } }
          (n.Data.Before.take i) w)).1 = none)
    (hfail :
      (hook conn { stream with Params := { Keys := n.Keys, Values := n.ParseParams formatPath } }
        (callAll conn
          { stream with Params := { Keys := n.Keys, Values := n.ParseParams formatPath } }
          (n.Data.Before.take k) w)).1 = some err) :
    c.handler conn stream w
      = onError err (callAll conn
          { stream with Params := { Keys := n.Keys, Values := n.ParseParams formatPath } }
          (n.Data.Before.take (k + 1)) w) := by
  have hloop := hookLoop_first_error c conn
    { stream with Params := { Keys := n.Keys, Values := n.ParseParams formatPath } }
    n.Data.Before k hook err w hk hfirst hfail
  unfold Client.handler
  simp only [hrouter, hroute, hloop]
  simp [Client.reportError, honError]

theorem handler_before_abort_witness :
    demo.wsClient.handler () { Event := "/a" } [] = ["b0", "b1", "OnError:boom"] := by
  have key := handler_before_abort demo.wsClient demo.wsRouter { Data := demo.failing } "/a"
    (fun e w => w ++ ["OnError:" ++ e]) () { Event := "/a" } [] 1
    (demo.hook "b1" (some "boom")) "boom" rfl rfl rfl rfl
    (by
      intro i hi h hh
      obtain rfl : i = 0 := by omega
      simp only [demo.failing, List.getElem?_cons_zero, Option.some.injEq] at hh
      subst hh
      rfl)
    rfl
  exact key.trans (by decide)

/-- C11: in `Client.handler` with a matched route whose Before hooks all succeed (and
OnError set), the route function is invoked once, on the state the last Before hook left.
If it returns an error, no After hook runs and OnError is called once with that error.  If
it succeeds, the After hooks run in list order up to and including the first failing one,
whose error is reported once via OnError.  When everything succeeds the effect is that of
the Before hooks, the route function and the After hooks, and OnError is not called. -/
theorem handler_function_then_after (c : Client κ σ) (router : Router κ σ) (n : Tire κ σ)
    (formatPath : String) (onError : String → σ → σ) (conn : κ) (stream : socket.Stream)
    (w : σ) (hrouter : c.router = some router)
    (hroute : router.getRoute stream.Event = some (n, formatPath))
    (honError : c.OnError = some onError)
    (hbefore : ∀ (i : Nat) (h : Hook κ σ), n.Data.Before[i]? = some h →
      (h conn (matched stream n formatPath)
        (callAll conn (matched stream n formatPath) (n.Data.Before.take i) w)).1 = none) :
    (∀ err,
      (n.Data.Function conn (matched stream n formatPath)
        (callAll conn (matched stream n formatPath) n.Data.Before w)).1 = some err →
      c.handler conn stream w
        = onError err (n.Data.Function conn (matched stream n formatPath)
            (callAll conn (matched stream n formatPath) n.Data.Before w)).2)
    ∧ ((n.Data.Function conn (matched stream n formatPath)
        (callAll conn (matched stream n formatPath) n.Data.Before w)).1 = none →
      (∀ (k : Nat) (hook : Hook κ σ) (err : String), n.Data.After[k]? = some hook →
        (∀ i, i < k → ∀ h, n.Data.After[i]? = some h →
          (h conn (matched stream n formatPath)
            (callAll conn (matched stream n formatPath) (n.Data.After.take i)
              (n.Data.Function conn (matched stream n formatPath)
                (callAll conn (matched stream n formatPath) n.Data.Before w)).2)).1 = none) →
        (hook conn (matched stream n formatPath)
          (callAll conn (matched stream n formatPath) (n.Data.After.take k)
            (n.Data.Function conn (matched stream n formatPath)
              (callAll conn (matched stream n formatPath) n.Data.Before w)).2)).1 = some err →
        c.handler conn stream w
          = onError err (callAll conn (matched stream n formatPath) (n.Data.After.take (k + 1))
              (n.Data.Function conn (matched stream n formatPath)
                (callAll conn (matched stream n formatPath) n.Data.Before w)).2))
      ∧ ((∀ (i : Nat) (h : Hook κ σ), n.Data.After[i]? = some h →
          (h conn (matched stream n formatPath)
            (callAll conn (matched stream n formatPath) (n.Data.After.take i)
              (n.Data.Function conn (matched stream n formatPath)
                (callAll conn (matched stream n formatPath) n.Data.Before w)).2)).1 = none) →
        c.handler conn stream w
          = callAll conn (matched stream n formatPath) n.Data.After
              (n.Data.Function conn (matched stream n formatPath)
                (callAll conn (matched stream n formatPath) n.Data.Before w)).2)) := by
  have hm := handler_matched c router n formatPath conn stream w hrouter hroute
  rw [hookLoop_all_ok c conn (matched stream n formatPath) n.Data.Before w hbefore] at hm
  simp only at hm
  rcases hf : n.Data.Function conn (matched stream n formatPath)
      (callAll conn (matched stream n formatPath) n.Data.Before w) with ⟨e, wF⟩
  rw [hf] at hm
  refine ⟨?_, ?_⟩
  · intro err herr
    simp only at herr
    subst herr
    simpa [Client.reportError, honError] using hm
  · intro hnone
    simp only at hnone
    subst hnone
    simp only at hm
    refine ⟨?_, ?_⟩
    · intro k hook err hk hfirst hfail
      rw [hm, hookLoop_first_error c conn (matched stream n formatPath) n.Data.After k hook err
        wF hk hfirst hfail]
      simp [Client.reportError, honError]
    · intro hafter
      rw [hm, hookLoop_all_ok c conn (matched stream n formatPath) n.Data.After wF hafter]

theorem handler_function_then_after_witness :
    demo.wsOpen.handler () { Event := "/f" } [] = ["b0", "b1", "f", "OnError:bad"]
    ∧ demo.wsOpen.handler () { Event := "/late" } []
        = ["b0", "f", "a0", "a1", "OnError:late"]
    ∧ demo.wsOpen.handler () { Event := "/ok" } [] = ["b0", "f", "a0", "a1"] := by
  have kf := handler_function_then_after demo.wsOpen demo.wsRouter2
    { Data := demo.failingFunction } "/f" (fun e w => w ++ ["OnError:" ++ e]) ()
    { Event := "/f" } [] rfl rfl rfl (by
      intro i h hi
      rcases i with _ | _ | i <;> simp [demo.failingFunction] at hi <;> subst hi <;> rfl)
  have kl := handler_function_then_after demo.wsOpen demo.wsRouter2
    { Data := demo.failingAfter } "/late" (fun e w => w ++ ["OnError:" ++ e]) ()
    { Event := "/late" } [] rfl rfl rfl (by
      intro i h hi
      rcases i with _ | i <;> simp [demo.failingAfter] at hi
      subst hi
      rfl)
  have ko := handler_function_then_after demo.wsOpen demo.wsRouter2
    { Data := demo.succeeding } "/ok" (fun e w => w ++ ["OnError:" ++ e]) ()
    { Event := "/ok" } [] rfl rfl rfl (by
      intro i h hi
      rcases i with _ | i <;> simp [demo.succeeding] at hi
      subst hi
      rfl)
  refine ⟨(kf.1 "bad" rfl).trans (by decide), ?_, ?_⟩
  · refine ((kl.2 rfl).1 1 (demo.hook "a1" (some "late")) "late" rfl ?_ rfl).trans (by decide)
    intro i hi h hh
    obtain rfl : i = 0 := by omega
    simp only [demo.failingAfter, List.getElem?_cons_zero, Option.some.injEq] at hh
    subst hh
    rfl
  · refine ((ko.2 rfl).2 ?_).trans (by decide)
    intro i h hi
    rcases i with _ | _ | i <;> simp [demo.succeeding] at hi <;> subst hi <;> rfl

/-- C12: for every stream whose event has no matching route (the client has no router, or
the router's lookup returns nothing), `Client.handler` (OnError set) calls OnError once,
with the message `event ++ " 404 not found"`, and does nothing else: no Before hook, route
function or After hook is invoked; the handler returns normally, with no error to hand to
the read loop. -/
theorem handler_not_found (c : Client κ σ) (onError : String → σ → σ) (conn : κ)
    (stream : socket.Stream) (w : σ) (honError : c.OnError = some onError)
    (hnone : c.router = none
      ∨ ∃ router, c.router = some router ∧ router.getRoute stream.Event = none) :
    c.handler conn stream w = onError (stream.Event ++ " 404 not found") w := by
  have hmsg : stream.Event ++ " " ++ "404 not found" = stream.Event ++ " 404 not found" := by
    rw [String.append_assoc]
    rfl
  unfold Client.handler
  rcases hnone with h | ⟨router, h, hget⟩
  · simp only [h, Client.reportError, honError, hmsg]
  · simp only [h, hget, Client.reportError, honError, hmsg]

theorem handler_not_found_witness :
    demo.wsOpen.handler () { Event := "/nowhere" } [] = ["OnError:/nowhere 404 not found"]
    ∧ demo.wsClient.handler () { Event := "/b" } [] = ["OnError:/b 404 not found"]
    ∧ ({ demo.wsOpen with router := none } : Client Unit (List String)).handler ()
        { Event := "/f" } [] = ["OnError:/f 404 not found"] := by
  refine ⟨(handler_not_found demo.wsOpen (fun e w => w ++ ["OnError:" ++ e]) ()
      { Event := "/nowhere" } [] rfl (Or.inr ⟨demo.wsRouter2, rfl, rfl⟩)).trans (by decide),
    (handler_not_found demo.wsClient (fun e w => w ++ ["OnError:" ++ e]) ()
      { Event := "/b" } [] rfl (Or.inr ⟨demo.wsRouter, rfl, rfl⟩)).trans (by decide),
    (handler_not_found ({ demo.wsOpen with router := none } : Client Unit (List String))
      (fun e w => w ++ ["OnError:" ++ e]) () { Event := "/f" } [] rfl
      (Or.inl rfl)).trans (by decide)⟩

/-- C13: for every message whose decoded kind is Unknown, `Client.decodeMessage` (after the
OnMessage notification) invokes OnUnknown, when set, with the raw message and
`c.middleware` as its `next`, and nothing else: the Ping handler, the Pong handler and the
middleware / route dispatch are not invoked by `decodeMessage`; it returns nil, so the read
loop goes round again without sending the stop signal. -/
theorem decodeMessage_unknown (c : Client κ σ) (self : κ) (protocol : websocket.Protocol)
    (messageFrame : Int) (message : List UInt8) (id : Int) (route : String)
    (body : List UInt8) (w : σ) (hprotocol : c.Protocol = some protocol)
    (hdecode : protocol.Decode message = (socket.MessageType.Unknown, id, route, body)) :
    (∀ onUnknown, c.OnUnknown = some onUnknown →
      c.decodeMessage self messageFrame message w
        = (.ok none, onUnknown self message c.middleware
            (c.notifyMessage self messageFrame message w))
      ∧ c.readLoop self (.ok (messageFrame, message)) w
        = (.next, onUnknown self message c.middleware
            (c.notifyMessage self messageFrame message w)))
    ∧ (c.OnUnknown = none →
      c.decodeMessage self messageFrame message w
        = (.ok none, c.notifyMessage self messageFrame message w)
      ∧ c.readLoop self (.ok (messageFrame, message)) w
        = (.next, c.notifyMessage self messageFrame message w)) := by
  have hd := decodeMessage_decoded c self protocol messageFrame message _ id route body w
    hprotocol hdecode
  rw [if_pos rfl] at hd
  constructor
  · intro onUnknown hU
    rw [hU] at hd
    exact ⟨hd, by simp only [Client.readLoop, hd]⟩
  · intro hU
    rw [hU] at hd
    exact ⟨hd, by simp only [Client.readLoop, hd]⟩

theorem decodeMessage_unknown_witness :
    (demo.wsOpen.decodeMessage () 2 [0, 5] []).2 = ["OnMessage", "OnUnknown"]
    ∧ (demo.wsOpen.readLoop () (.ok (2, [0, 5])) []).1 = Pass.next
    ∧ (({ demo.wsOpen with OnUnknown := none } : Client Unit (List String)).readLoop ()
        (.ok (2, [0, 5])) []) = (Pass.next, ["OnMessage"]) := by
  have key := decodeMessage_unknown demo.wsOpen () demo.protocol 2 [0, 5] 0 "" [] [] rfl rfl
  have key2 := decodeMessage_unknown
    ({ demo.wsOpen with OnUnknown := none } : Client Unit (List String)) () demo.protocol 2
    [0, 5] 0 "" [] [] rfl rfl
  obtain ⟨hd, hr⟩ := key.1 (fun _ _ _ w => w ++ ["OnUnknown"]) rfl
  refine ⟨?_, ?_, (key2.2 rfl).2.trans (by decide)⟩
  · rw [hd]
    decide
  · rw [hr]

/-- C14 (as stated, refuted): a Ping frame whose Ping handler returns the error `ping
failed`: `decodeMessage` hands the error back to the read loop, which reports it via OnError,
sends the stop signal and exits. -/
theorem ping_error_stops_connection_counterexample :
    (demo.wsOpen.decodeMessage () 9 [1] []).1 = .ok (some "ping failed")
    ∧ demo.wsOpen.readLoop () (.ok (9, [1])) []
        = (Pass.exit true, ["OnMessage", "Ping", "OnError:ping failed"]) := by
  constructor
  · rfl
  · decide

/-- C14 (amended): for every received Binary frame (any kind but Unknown, Ping, Pong),
whatever error a hook or the route handler returns is dealt with inside the middleware chain
(reported via OnError by the handler): `decodeMessage` returns nil and the read loop goes
round again without sending the stop signal.  For a Ping or Pong frame the error of the Ping
or Pong handler is handed back by `decodeMessage` to the read loop, which reports it via
OnError, sends the stop signal (unless `isStop` is already set) and exits; without an error
the read loop goes round again. -/
theorem frame_errors (c : Client κ σ) (self : κ) (protocol : websocket.Protocol)
    (messageFrame : Int) (message : List UInt8) (kind : socket.MessageType) (id : Int)
    (route : String) (body : List UInt8) (w : σ) (hprotocol : c.Protocol = some protocol)
    (hdecode : protocol.Decode message = (kind, id, route, body)) :
    (kind ≠ socket.MessageType.Unknown → kind ≠ socket.MessageType.Ping →
      kind ≠ socket.MessageType.Pong →
      c.decodeMessage self messageFrame message w
        = (.ok none, c.middleware self { Event := route, Data := body, ID := id }
            (c.notifyMessage self messageFrame message w))
      ∧ c.readLoop self (.ok (messageFrame, message)) w
        = (.next, c.middleware self { Event := route, Data := body, ID := id }
            (c.notifyMessage self messageFrame message w)))
    ∧ (∀ handler : κ → String → σ → Option String × σ,
      (kind = socket.MessageType.Ping ∧ c.PingHandler = some handler)
        ∨ (kind = socket.MessageType.Pong ∧ c.PongHandler = some handler) →
      c.decodeMessage self messageFrame message w
        = (.ok (handler self "" (c.notifyMessage self messageFrame message w)).1,
            (handler self "" (c.notifyMessage self messageFrame message w)).2)
      ∧ (∀ err onError,
          (handler self "" (c.notifyMessage self messageFrame message w)).1 = some err →
          c.OnError = some onError →
          c.readLoop self (.ok (messageFrame, message)) w
            = (.exit (!c.isStop),
                onError err (handler self "" (c.notifyMessage self messageFrame message w)).2))
      ∧ ((handler self "" (c.notifyMessage self messageFrame message w)).1 = none →
          c.readLoop self (.ok (messageFrame, message)) w
            = (.next, (handler self "" (c.notifyMessage self messageFrame message w)).2))) := by
  have hd := decodeMessage_decoded c self protocol messageFrame message kind id route body w
    hprotocol hdecode
  constructor
  · intro hU hPi hPo
    rw [if_neg hU, if_neg hPi, if_neg hPo] at hd
    exact ⟨hd, by simp only [Client.readLoop, hd]⟩
  · intro handler hkind
    have hd2 : c.decodeMessage self messageFrame message w
        = (.ok (handler self "" (c.notifyMessage self messageFrame message w)).1,
            (handler self "" (c.notifyMessage self messageFrame message w)).2) := by
      rcases hkind with ⟨hk, hh⟩ | ⟨hk, hh⟩
      · rw [hd, hk, if_neg (by decide), if_pos rfl, hh]
      · rw [hd, hk, if_neg (by decide), if_neg (by decide), if_pos rfl, hh]
    refine ⟨hd2, ?_, ?_⟩
    · intro err onError herr hOn
      simp only [Client.readLoop, hd2, herr, hOn]
    · intro hnone
      simp only [Client.readLoop, hd2, hnone]

theorem frame_errors_witness :
    demo.wsOpen.readLoop () (.ok (2, [3, 5])) []
        = (Pass.next, ["OnMessage", "b0", "b1", "f", "OnError:bad"])
    ∧ demo.wsOpen.readLoop () (.ok (9, [1])) []
        = (Pass.exit true, ["OnMessage", "Ping", "OnError:ping failed"])
    ∧ demo.wsOpen.readLoop () (.ok (10, [2])) [] = (Pass.next, ["OnMessage", "Pong"]) := by
  have kb := frame_errors demo.wsOpen () demo.protocol 2 [3, 5] socket.MessageType.Bin 7 "/f"
    [5] [] rfl rfl
  have kping := frame_errors demo.wsOpen () demo.protocol 9 [1] socket.MessageType.Ping 0 ""
    [] [] rfl rfl
  have kpong := frame_errors demo.wsOpen () demo.protocol 10 [2] socket.MessageType.Pong 0 ""
    [] [] rfl rfl
  refine ⟨(kb.1 (by decide) (by decide) (by decide)).2.trans (by decide), ?_, ?_⟩
  · exact ((kping.2 (fun _ _ w => (some "ping failed", w ++ ["Ping"]))
      (Or.inl ⟨rfl, rfl⟩)).2.1 "ping failed" (fun e w => w ++ ["OnError:" ++ e]) rfl
      rfl).trans (by decide)
  · exact ((kpong.2 (fun _ _ w => (none, w ++ ["Pong"]))
      (Or.inr ⟨rfl, rfl⟩)).2.2 rfl).trans (by decide)

/-- C15: `Client.Connect` fails fast on missing mandatory callbacks.  For every client with
a non-empty Addr in which any of OnOpen, OnClose or OnError is nil, `Connect` panics (with
the message of the first missing one) before dialing the server and before any callback,
timer or goroutine is started: the state is untouched and nothing was asked of the
runtime. -/
theorem connect_requires_callbacks (net : Net σ) (self : κ) (fuel : Nat) (c : Client κ σ)
    (w : σ) (haddr : c.Addr ≠ "")
    (hnil : c.OnOpen = none ∨ c.OnClose = none ∨ c.OnError = none) :
    (Client.Connect net self fuel c w).1
      = .panicked (if c.OnOpen.isNone then "OnOpen must set"
          else if c.OnClose.isNone then "OnClose must set" else "OnError must set")
    ∧ (Client.Connect net self fuel c w).2.2 = (w, []) := by
  rw [Connect_checked net self fuel c w haddr hnil]
  exact ⟨rfl, rfl⟩

theorem connect_requires_callbacks_witness :
    (Client.Connect demo.net () 3
        ({ demo.wsOpen with OnClose := none } : Client Unit (List String)) []).1
      = .panicked "OnClose must set"
    ∧ (Client.Connect demo.net () 3
        ({ demo.wsOpen with OnClose := none } : Client Unit (List String)) []).2.2
      = ([], []) := by
  have key := connect_requires_callbacks demo.net () 3
    ({ demo.wsOpen with OnClose := none } : Client Unit (List String)) [] (by decide)
    (Or.inr (Or.inl rfl))
  exact ⟨key.1, key.2⟩

/-- C16 (the code): with HeartBeatInterval equal to zero, for every client whose mandatory
callbacks are set and whose handshake succeeds, `Connect` panics in `time.NewTicker`
(library contract: the duration must be greater than zero) right after the dial: no timer
is created, no goroutine is started, OnSuccess and OnOpen are not invoked. -/
theorem connect_zero_interval_panics (net : Net σ) (self : κ) (fuel : Nat) (c : Client κ σ)
    (w w1 : σ) (onOpen onClose : κ → σ → σ) (onError : String → σ → σ)
    (haddr : c.Addr ≠ "")
    (hOpen : c.OnOpen = some onOpen) (hClose : c.OnClose = some onClose)
    (hError : c.OnError = some onError)
    (hdial : net.Dial (c.defaultPath.Scheme ++ "://" ++ c.Addr ++ c.defaultPath.Path) w
      = (none, w1))
    (hinterval : c.HeartBeatInterval = 0) :
    (Client.Connect net self fuel c w).1 = .panicked "non-positive interval for NewTicker"
    ∧ (Client.Connect net self fuel c w).2.2 =
      (w1, [Action.Dial (c.defaultPath.Scheme ++ "://" ++ c.Addr ++ c.defaultPath.Path)
          (if c.DailTimeout = 0 then 2 * time.Second else c.DailTimeout)
          (if c.WriteBufferSize = 0 then 1024 else c.WriteBufferSize)
          (if c.ReadBufferSize = 0 then 1024 else c.ReadBufferSize)]) := by
  rw [Connect_zero_ticker net self fuel c w w1 onOpen onClose onError haddr hOpen hClose
    hError hdial hinterval]
  exact ⟨rfl, rfl⟩

theorem connect_zero_interval_panics_witness :
    (Client.Connect demo.net () 0
        ({ demo.wsOpen with HeartBeatTimeout := 30 * time.Second } :
          Client Unit (List String)) []).1
      = .panicked "non-positive interval for NewTicker"
    ∧ (Client.Connect demo.net () 0
        ({ demo.wsOpen with HeartBeatTimeout := 30 * time.Second } :
          Client Unit (List String)) []).2.2
      = (["Dial ws://127.0.0.1:8080/"],
          [Action.Dial "ws://127.0.0.1:8080/" 2000000000 1024 1024])
    ∧ (Client.Connect demo.net () 0
        ({ demo.wsOpen with HeartBeatInterval := 15 * time.Second } :
          Client Unit (List String)) []).2.2
      = (["Dial ws://127.0.0.1:8080/", "OnOpen"],
          [Action.Dial "ws://127.0.0.1:8080/" 2000000000 1024 1024,
           Action.NewTicker 15000000000, Action.NewTimer 0, Action.SetPingHandler,
           Action.SetPongHandler, Action.Go "heartbeat", Action.TimerStop,
           Action.Go "pongTimer", Action.Go "read"]) := by
  have key := connect_zero_interval_panics demo.net () 0
    ({ demo.wsOpen with HeartBeatTimeout := 30 * time.Second } :
      Client Unit (List String)) [] ["Dial ws://127.0.0.1:8080/"]
    (fun _ w => w ++ ["OnOpen"]) (fun _ w => w ++ ["OnClose"])
    (fun e w => w ++ ["OnError:" ++ e]) (by decide) rfl rfl rfl (by decide) rfl
  exact ⟨key.1, key.2.trans (by decide), by decide⟩

end client

/-! ## The request builders -/

namespace http

/-- C18 (the code): `Json.Bytes` calls itself and nothing else, so for every Json value
(one that was never parsed included) the call has not returned at any depth: it does not
terminate and returns no byte slice. -/
theorem json_bytes_never_returns {Any : Type} (j : Json Any) (fuel : Nat) :
    j.Bytes fuel = none := by
  induction fuel with
  | zero => rfl
  | succ n ih => exact ih

end http

namespace http.client

variable {U R F X : Type}

/-- C19 (the code): when the url parses and `info.body` is set but is not a
`[]map[string]interface{}`, `doUrl` returns a nil request, a nil cancel function and a nil
error, where `doPostFormUrlencoded` returns its error. -/
theorem doUrl_nil_request_nil_error (lib : Lib U R F X) (method url : String) (i : info F X)
    (Url : U) (hparse : lib.Parse url = .ok Url) (hnil : i.body ≠ Body.nil)
    (hmaps : ∀ ms, i.body ≠ Body.maps ms) :
    (doUrl lib method url i).1 = (none, none, none)
    ∧ (doPostFormUrlencoded lib method url i).1
        = (none, none,
            some "application/x-www-form-urlencoded body must be map[string]interface") := by
  unfold doUrl doPostFormUrlencoded info.defaultBody
  rw [hparse]
  cases hb : i.body with
  | nil => exact absurd hb hnil
  | maps ms => exact absurd hb (hmaps ms)
  | map m => simp [hb]
  | other x => simp [hb]

theorem doUrl_nil_request_nil_error_witness :
    (doUrl demo.clientLib "GET" "http://a.example/x" { body := Body.other "text" }).1
        = (none, none, none)
    ∧ (doPostFormUrlencoded demo.clientLib "GET" "http://a.example/x"
        { body := Body.other "text" }).1
        = (none, none,
            some "application/x-www-form-urlencoded body must be map[string]interface") := by
  exact doUrl_nil_request_nil_error demo.clientLib "GET" "http://a.example/x"
    { body := Body.other "text" } ("http://a.example/x", "") rfl
    (by intro h; cases h) (by intro ms h; cases h)

end http.client

namespace utils

variable {U F X : Type}

/-- C20 (the code): for a non-GET request with Content-Type
`application/x-www-form-urlencoded` and the empty body map, `do` panics while building the
body: `str` is empty and `str[:len(str)-1]` is out of range. -/
theorem do_empty_form_panics (lib : Lib U F X) (method url : String)
    (headerKey headerValue cookies : List String) (hmethod : method ≠ "GET")
    (hct : contentType headerValue headerKey 0 = .ok "application/x-www-form-urlencoded") :
    do_ lib method url headerKey headerValue (Body.map []) cookies
      = .error "runtime error: slice bounds out of range [:-1]" := by
  unfold do_
  rw [if_neg hmethod, hct]
  simp [formPairs, dropLastByte]

theorem do_empty_form_panics_witness :
    do_ demo.utilsLib "POST" "http://a.example/x" ["Content-Type"]
        ["application/x-www-form-urlencoded"] (Body.map []) []
      = .error "runtime error: slice bounds out of range [:-1]"
    ∧ do_ demo.utilsLib "POST" "http://a.example/x" ["Content-Type"]
        ["application/x-www-form-urlencoded"]
        (Body.map [("a", Iface.string "1"), ("b", Iface.int 2)]) []
      = .ok (some "a=1&b=2".toUTF8.toList, none) := by
  refine ⟨do_empty_form_panics demo.utilsLib "POST" "http://a.example/x" ["Content-Type"]
    ["application/x-www-form-urlencoded"] [] (by decide) rfl, ?_⟩
  rfl

end utils

/-! ## The GET branch of `utils` `do`, and the `Store` -/

namespace utils

variable {U F X : Type}

/-- C21 (the code): for a GET request whose url parses and whose body map has only
string, int and float64 values, `do` computes the encoded pairs but builds the request from
the url it was given: the request handed to `client.Do` has that url whatever the map is,
so the pairs of the map are not in its query. -/
theorem do_get_drops_query (lib : Lib U F X) (rawurl : String)
    (headerKey headerValue cookies : List String) (m : List (String × Iface F X)) (Url : U)
    (params : url.Values) (header : List (String × String))
    (hparse : lib.Parse rawurl = .ok Url) (hvalues : queryParams lib m [] = some params)
    (hrequest : lib.NewRequest "GET" rawurl none = none)
    (hheader : addHeaders headerValue headerKey 0 [] = .ok header) :
    do_ lib "GET" rawurl headerKey headerValue (Body.map m) cookies
      = (match lib.Do { Method := "GET", URL := rawurl, Header := header, Cookies := cookies } with
        | .error err => .ok (none, some err)
        | .ok dataBytes => .ok (some dataBytes, none))
    ∧ do_ lib "GET" rawurl headerKey headerValue (Body.map m) cookies
      = do_ lib "GET" rawurl headerKey headerValue (Body.map []) cookies := by
  have hm : ∀ (m2 : List (String × Iface F X)) (p2 : url.Values),
      queryParams lib m2 [] = some p2 →
      do_ lib "GET" rawurl headerKey headerValue (Body.map m2) cookies
        = (match lib.Do { Method := "GET", URL := rawurl, Header := header, Cookies := cookies }
            with
          | .error err => .ok (none, some err)
          | .ok dataBytes => .ok (some dataBytes, none)) := by
    intro m2 p2 h2
    unfold do_
    simp only [if_true, hparse, h2, hrequest, finish, hheader, List.nil_append]
  exact ⟨hm m params hvalues, (hm m params hvalues).trans (hm [] [] rfl).symm⟩

theorem do_get_drops_query_witness :
    do_ demo.echoLib "GET" "http://a.example/x" [] []
        (Body.map [("a", Iface.string "1"), ("b", Iface.int 2)]) []
      = .ok (some "http://a.example/x".toUTF8.toList, none)
    ∧ do_ demo.echoLib "GET" "http://a.example/x" [] []
        (Body.map [("a", Iface.string "1"), ("b", Iface.int 2)]) []
      = do_ demo.echoLib "GET" "http://a.example/x" [] [] (Body.map []) [] := by
  have key := do_get_drops_query demo.echoLib "http://a.example/x" [] [] []
    [("a", Iface.string "1"), ("b", Iface.int 2)] ("http://a.example/x", "")
    [("a", "1"), ("b", strconv.Itoa 2)] [] rfl rfl rfl rfl
  exact ⟨key.1, key.2⟩

end utils

namespace http

theorem index_first (key : String) :
    ∀ (keys : List String) (i : Nat),
      (key ∉ keys ∧ Store.index key keys i = -1)
      ∨ ∃ idx : Nat, idx < keys.length ∧ Store.index key keys i = ((i + idx : Nat) : Int)
          ∧ keys[idx]? = some key ∧ ∀ j, j < idx → keys[j]? ≠ some key := by
  intro keys
  induction keys with
  | nil => intro i; exact Or.inl ⟨by simp, rfl⟩
  | cons k rest ih =>
    intro i
    by_cases hk : k = key
    · refine Or.inr ⟨0, by simp, by simp [Store.index, hk], by simp [hk], ?_⟩
      intro j hj
      omega
    · rcases ih (i + 1) with ⟨hnot, hidx⟩ | ⟨idx, hlt, hidx, hget, hfirst⟩
      · refine Or.inl ⟨?_, by simp [Store.index, hk, hidx]⟩
        simp only [List.mem_cons, not_or]
        exact ⟨fun h => hk h.symm, hnot⟩
      · refine Or.inr ⟨idx + 1, by simpa using hlt, ?_, by simpa using hget, ?_⟩
        · simp only [Store.index, hk, if_false, hidx]
          congr 1
          omega
        · intro j hj
          cases j with
          | zero => simpa using hk
          | succ n => simpa using hfirst n (by omega)

theorem removeFirst_absent (key : String) :
    ∀ (keys : List String) (values : List (List String)),
      key ∉ keys → removeFirst key (keys.zip values) = keys.zip values := by
  intro keys
  induction keys with
  | nil => intro values _; simp [removeFirst]
  | cons k rest ih =>
    intro values hnot
    simp only [List.mem_cons, not_or] at hnot
    cases values with
    | nil => simp [removeFirst]
    | cons v vs =>
      have hk : ¬ k = key := fun h => hnot.1 h.symm
      rw [show (k :: rest).zip (v :: vs) = (k, v) :: rest.zip vs from rfl]
      simp only [removeFirst, hk, if_false, ih vs hnot.2]

theorem zip_removeFirst (key : String) :
    ∀ (keys : List String) (values : List (List String)) (idx : Nat),
      keys.length = values.length → keys[idx]? = some key →
      (∀ j, j < idx → keys[j]? ≠ some key) →
      (keys.take idx ++ keys.drop (idx + 1)).zip (values.take idx ++ values.drop (idx + 1))
        = removeFirst key (keys.zip values) := by
  intro keys
  induction keys with
  | nil => intro values idx _ hget; simp at hget
  | cons k rest ih =>
    intro values idx hlen hget hfirst
    cases values with
    | nil => simp at hlen
    | cons v vs =>
      have hlen2 : rest.length = vs.length := by simpa using hlen
      cases idx with
      | zero =>
        have hk : k = key := by simpa using hget
        rw [show (k :: rest).zip (v :: vs) = (k, v) :: rest.zip vs from rfl]
        simp only [List.take_zero, List.nil_append, List.drop_succ_cons, List.drop_zero,
          removeFirst, hk, if_true]
      | succ n =>
        have hk : ¬ k = key := by simpa using hfirst 0 (by omega)
        have step := ih vs n hlen2 (by simpa using hget)
          (fun j hj => by simpa using hfirst (j + 1) (by omega))
        rw [show (k :: rest).zip (v :: vs) = (k, v) :: rest.zip vs from rfl]
        simp only [List.take_succ_cons, List.drop_succ_cons, List.cons_append, removeFirst, hk,
          if_false, ← step]
        rfl

/-- C22: `Store` keeps keys and values aligned.  On a store with `len(keys) = len(values)`,
`Add(k, v)` appends the pair `(k, v)` at the end and `Remove(k)` returns normally, having
deleted exactly the first entry whose key is `k`: every other (key, values) pair stays, in
the same relative order; it is a no-op when `k` is absent.  Both leave
`len(keys) = len(values)`. -/
theorem store_aligned (s : Store) (key : String) (value : List String)
    (hinv : s.keys.length = s.values.length) :
    ((s.Add key value).keys.length = (s.Add key value).values.length
      ∧ (s.Add key value).keys = s.keys ++ [key]
      ∧ (s.Add key value).values = s.values ++ [value]
      ∧ (s.Add key value).pairs = s.pairs ++ [(key, value)])
    ∧ ∃ s2 : Store, s.Remove key = .ok s2
        ∧ s2.keys.length = s2.values.length
        ∧ s2.pairs = removeFirst key s.pairs
        ∧ (key ∉ s.keys → s2 = s)
        ∧ (key ∈ s.keys → s2.keys.length + 1 = s.keys.length) := by
  constructor
  · refine ⟨by simp [Store.Add, hinv], rfl, rfl, ?_⟩
    simp [Store.Add, Store.pairs, List.zip_append hinv]
  · rcases index_first key s.keys 0 with ⟨hnot, hidx⟩ | ⟨idx, hlt, hidx, hget, hfirst⟩
    · refine ⟨s, by simp [Store.Remove, hidx], hinv, ?_, fun _ => rfl, fun h => absurd h hnot⟩
      exact (removeFirst_absent key s.keys s.values hnot).symm
    · have hi : Store.index key s.keys 0 = (idx : Int) := by simpa using hidx
      have hne : ¬ ((idx : Int) = -1) := by omega
      have hmem : key ∈ s.keys := by
        rw [List.getElem?_eq_getElem hlt] at hget
        have hget2 : s.keys[idx] = key := by simpa using hget
        exact hget2 ▸ List.getElem_mem hlt
      refine ⟨{ keys := s.keys.take idx ++ s.keys.drop (idx + 1)
                values := s.values.take idx ++ s.values.drop (idx + 1) }, ?_, ?_, ?_, ?_, ?_⟩
      · have hv : idx + 1 ≤ s.values.length := by omega
        simp [Store.Remove, hi, hne, hv]
      · simp only [List.length_append, List.length_take, List.length_drop]
        omega
      · exact zip_removeFirst key s.keys s.values idx hinv hget hfirst
      · intro hnot
        exact absurd hmem hnot
      · intro _
        simp only [List.length_append, List.length_take, List.length_drop]
        omega

theorem store_aligned_witness :
    ((demo.store.Add "c" ["5"]).pairs
        = [("a", ["1"]), ("b", ["2", "3"]), ("a", ["4"]), ("c", ["5"])])
    ∧ demo.store.Remove "a" = .ok { keys := ["b", "a"], values := [["2", "3"], ["4"]] }
    ∧ demo.store.Remove "z" = .ok demo.store := by
  have ka := store_aligned demo.store "c" ["5"] (by decide)
  have kr := store_aligned demo.store "a" [] (by decide)
  have kz := store_aligned demo.store "z" [] (by decide)
  obtain ⟨sz, hz, _, _, hsame, _⟩ := kz.2
  obtain ⟨sr, hr, _, _, _, _⟩ := kr.2
  refine ⟨ka.1.2.2.2.trans (by decide), ?_, ?_⟩
  · rfl
  · rw [hz, hsame (by decide)]

end http

/-! ## Registration on shared backing arrays -/

namespace http.heap

/-- C1 (the code): a group built by `Before(h1).Before(h2).Before(h3)` holds its three hooks
in an array of capacity 4.  `Get("/a").Before(h4).Handler` appends `h4` into that array and
the record of `/g/a` reads `[1, 2, 3, 4]`; the next `Get("/b").Before(h5).Handler` of the
same group appends `h5` into the same place, and the record of `/g/a`, already in the trie,
now reads `[1, 2, 3, 5]`: it has lost its own hook and runs the hook of `/g/b`.  With the
global hook `h9` set, the record of `/g/a` first reads `[1, 2, 3, 9]` and after the
registration of `/g/b` reads `[1, 2, 3, 5]`: the global hook is gone from it. -/
theorem handler_shares_group_array :
    (beforeOf demo.heapA.2.1 demo.heapA.2.2 "/g/a" = some [1, 2, 3, 4]
      ∧ beforeOf demo.heapAB.2.1 demo.heapAB.2.2 "/g/a" = some [1, 2, 3, 5]
      ∧ beforeOf demo.heapAB.2.1 demo.heapAB.2.2 "/g/b" = some [1, 2, 3, 5])
    ∧ (beforeOf demo.heapGlobalA.2.1 demo.heapGlobalA.2.2 "/g/a" = some [1, 2, 3, 9]
      ∧ beforeOf demo.heapGlobalAB.2.1 demo.heapGlobalAB.2.2 "/g/a" = some [1, 2, 3, 5]
      ∧ beforeOf demo.heapGlobalAB.2.1 demo.heapGlobalAB.2.2 "/g/b"
          = some [1, 2, 3, 5, 9]) := by
  decide

end http.heap

/-! ## The middleware chain when the calls of the wrappers have effects -/

namespace client

variable {κ σ : Type}

theorem callWrappers_append (l1 l2 : List (Wrapper κ σ)) (terminal : Middle κ σ) (w : σ) :
    callWrappers (l1 ++ l2) terminal w
      = callWrappers l1 (callWrappers l2 terminal w).1 (callWrappers l2 terminal w).2 := by
  induction l1 with
  | nil => rfl
  | cons x rest ih =>
    simp only [List.cons_append, callWrappers]
    rw [← ih]
    rfl

theorem wrapCalls_take (middle : List (Wrapper κ σ)) :
    ∀ (n : Nat) (next : Middle κ σ) (w : σ), n ≤ middle.length →
      wrapCalls middle n next w = callWrappers (middle.take n) next w := by
  intro n
  induction n with
  | zero => intro next w _; rfl
  | succ i ih =>
    intro next w hi
    have hlt : i < middle.length := hi
    rw [wrapCalls, List.getElem?_eq_getElem hlt, List.take_succ,
      List.getElem?_eq_getElem hlt]
    simp only [Option.toList, callWrappers_append, callWrappers]
    exact ih _ _ (Nat.le_of_lt hlt)

theorem middlewareCalls_callWrappers (c : Client κ σ) (middle : List (Wrapper κ σ)) (conn : κ)
    (stream : socket.Stream) (w : σ) :
    c.middlewareCalls middle conn stream w
      = (callWrappers middle c.handler w).1 conn stream (callWrappers middle c.handler w).2 := by
  unfold Client.middlewareCalls
  rw [wrapCalls_take middle middle.length c.handler w (Nat.le_refl _), List.take_length]

theorem callWrappers_quiet (post : List (Wrapper κ σ))
    (hquiet : ∀ p ∈ post, ∀ (next : Middle κ σ) (w0 : σ), (p next w0).2 = w0)
    (terminal : Middle κ σ) (w : σ) : (callWrappers post terminal w).2 = w := by
  induction post with
  | nil => rfl
  | cons x rest ih =>
    have hrest := ih (fun p hp => hquiet p (List.mem_cons_of_mem _ hp))
    simp only [callWrappers]
    rw [hquiet x (List.mem_cons_self _ _), hrest]

theorem callWrappers_map_quiet (ws : List (Middle κ σ → Middle κ σ)) (terminal : Middle κ σ)
    (w : σ) :
    callWrappers (ws.map quiet) terminal w
      = (ws.foldr (fun wrapper inner => wrapper inner) terminal, w) := by
  induction ws with
  | nil => rfl
  | cons x rest ih => simp only [List.map_cons, callWrappers, ih, List.foldr_cons, quiet]

theorem middlewareCalls_quiet (c : Client κ σ) (conn : κ) (stream : socket.Stream) (w : σ) :
    c.middlewareCalls (c.middle.map quiet) conn stream w = c.middleware conn stream w := by
  rw [middlewareCalls_callWrappers, callWrappers_map_quiet, middleware_foldr]

/-- C8 (as stated, refuted): `w1` never invokes its next function, yet the wrapper `w2`
registered after it is executed on the frame (its call logs `build w2`), and the effect of
the middleware is not independent of `w2`. -/
theorem later_wrapper_is_called_counterexample :
    demo.wsClient.middlewareCalls [demo.stopping "w1", demo.building "w2"] ()
        { Event := "/a" } [] = ["build w2", "build w1", "w1"]
    ∧ demo.wsClient.middlewareCalls [demo.stopping "w1"] () { Event := "/a" } []
        = ["build w1", "w1"]
    ∧ demo.wsClient.middlewareCalls [demo.stopping "w1", demo.building "w2"] ()
        { Event := "/a" } []
      ≠ demo.wsClient.middlewareCalls [demo.stopping "w1"] () { Event := "/a" } [] := by
  decide

/-- C8 (amended): middleware short-circuit.  `Client.middleware` calls every wrapper, last
to first, on each frame to build the chain.  If what the wrapper at position `k` does and
returns does not depend on its `next`, then the terminal handler (route lookup, hooks,
route function, OnError) and the functions returned by the wrappers after position `k` are
not invoked: of the handler and the later wrappers only the effect of calling the later
wrappers remains, and the chain is that of the wrappers up to `k`.  When calling the later
wrappers has no effect of its own, the effect of the middleware is the same for every
router, OnError and later wrappers; in particular if `w1` ignores `next` it is that of `w1`
alone. -/
theorem middleware_short_circuit_calls (c : Client κ σ) (pre post : List (Wrapper κ σ))
    (wk : Wrapper κ σ) (next : Middle κ σ) (conn : κ) (stream : socket.Stream) (w : σ)
    (hignore : ∀ (next1 next2 : Middle κ σ) (w0 : σ), wk next1 w0 = wk next2 w0) :
    c.middlewareCalls (pre ++ wk :: post) conn stream w
        = callChain pre (wk next (callWrappers post c.handler w).2) conn stream
    ∧ ((∀ p ∈ post, ∀ (next1 : Middle κ σ) (w0 : σ), (p next1 w0).2 = w0) →
        c.middlewareCalls (pre ++ wk :: post) conn stream w
          = callChain pre (wk next w) conn stream
        ∧ (∀ (c2 : Client κ σ) (post2 : List (Wrapper κ σ)),
            (∀ p ∈ post2, ∀ (next1 : Middle κ σ) (w0 : σ), (p next1 w0).2 = w0) →
            c2.middlewareCalls (pre ++ wk :: post2) conn stream w
              = c.middlewareCalls (pre ++ wk :: post) conn stream w)
        ∧ (pre = [] →
            c.middlewareCalls (pre ++ wk :: post) conn stream w
              = (wk next w).1 conn stream (wk next w).2)) := by
  have hgen : ∀ (c1 : Client κ σ) (post1 : List (Wrapper κ σ)),
      c1.middlewareCalls (pre ++ wk :: post1) conn stream w
        = callChain pre (wk next (callWrappers post1 c1.handler w).2) conn stream := by
    intro c1 post1
    rw [middlewareCalls_callWrappers, callWrappers_append]
    simp only [callWrappers, callChain]
    rw [hignore (callWrappers post1 c1.handler w).1 next]
  have hq : ∀ (c1 : Client κ σ) (post1 : List (Wrapper κ σ)),
      (∀ p ∈ post1, ∀ (next1 : Middle κ σ) (w0 : σ), (p next1 w0).2 = w0) →
      c1.middlewareCalls (pre ++ wk :: post1) conn stream w
        = callChain pre (wk next w) conn stream := by
    intro c1 post1 h1
    rw [hgen c1 post1, callWrappers_quiet post1 h1]
  refine ⟨hgen c post, fun hquiet => ⟨hq c post hquiet, ?_, ?_⟩⟩
  · intro c2 post2 h2
    rw [hq c2 post2 h2, hq c post hquiet]
  · intro hpre
    rw [hq c post hquiet, hpre]
    rfl

theorem middleware_short_circuit_calls_witness :
    demo.wsClient.middlewareCalls
        ([demo.building "w1"] ++ demo.stopping "w2" :: [demo.building "w3"]) ()
        { Event := "/a" } []
      = ["build w3", "build w2", "build w1", "w1>", "w2", "<w1"]
    ∧ demo.wsClient.middlewareCalls
        ([demo.building "w1"] ++ demo.stopping "w2" :: [quiet (demo.through "w3")]) ()
        { Event := "/a" } []
      = ["build w2", "build w1", "w1>", "w2", "<w1"]
    ∧ ({ } : Client Unit (List String)).middlewareCalls
        ([demo.building "w1"] ++ demo.stopping "w2" :: []) () { Event := "/a" } []
      = demo.wsClient.middlewareCalls
        ([demo.building "w1"] ++ demo.stopping "w2" :: [quiet (demo.through "w3")]) ()
        { Event := "/a" } [] := by
  have kgen := middleware_short_circuit_calls demo.wsClient [demo.building "w1"]
    [demo.building "w3"] (demo.stopping "w2") (fun _ _ w => w) () { Event := "/a" } []
    (fun _ _ _ => rfl)
  have kquiet := middleware_short_circuit_calls demo.wsClient [demo.building "w1"]
    [quiet (demo.through "w3")] (demo.stopping "w2") (fun _ _ w => w) () { Event := "/a" } []
    (fun _ _ _ => rfl)
  have hq : ∀ p ∈ [quiet (demo.through "w3")],
      ∀ (next1 : Middle Unit (List String)) (w0 : List String), (p next1 w0).2 = w0 := by
    intro p hp next1 w0
    simp only [List.mem_singleton] at hp
    subst hp
    rfl
  refine ⟨kgen.1.trans (by decide), ((kquiet.2 hq).1).trans (by decide), ?_⟩
  exact (kquiet.2 hq).2.1 ({ } : Client Unit (List String)) []
    (by intro p hp; simp at hp)

end client

/-! ## The stop signal under two triggers -/

namespace client.lifecycle

theorem run_append (l1 l2 : List Goroutine) (s : State) :
    run (l1 ++ l2) s = run l2 (run l1 s) := by
  induction l1 generalizing s with
  | nil => rfl
  | cons g rest ih => exact ih _

theorem run_stuck (s : State) (hstuck : stuck s = true) :
    ∀ more : List Goroutine, run more s = s := by
  intro more
  induction more with
  | nil => rfl
  | cons g rest ih =>
    have hg : step g s = none := by
      simp only [stuck, Bool.and_eq_true, Option.isNone_iff_eq_none] at hstuck
      cases g
      · exact hstuck.1.1.1
      · exact hstuck.1.1.2
      · exact hstuck.1.2
      · exact hstuck.2
    simp only [run, hg, Option.getD_none]
    exact ih

/-- C17 (the code): a read error and a pong-deadline expiry on one open connection.  When
the read loop and the watchdog have both passed `if !c.isStop` before the main goroutine
sets `c.isStop`, both go on to send on `c.stopCh`, and only one send is ever received.  If
the read loop's send is received, the watchdog stays blocked in its send, the main goroutine
blocks in the send on `c.cancelPongTimer`, and OnClose and the reconnect policy never run,
however the goroutines are scheduled afterwards.  If the watchdog's send is received, the
shutdown runs once but the read loop stays blocked in its send for ever.  Only when the
second trigger checks `c.isStop` after it was set does exactly one shutdown run with every
goroutine returned. -/
theorem stop_signal_race (more : List Goroutine) :
    run ([Goroutine.read, Goroutine.read, Goroutine.pongTimer, Goroutine.pongTimer,
          Goroutine.read, Goroutine.main, Goroutine.main] ++ more) bothTriggers
      = { main := Main.cancelPong, heartbeat := Heartbeat.returned,
          pongTimer := PongTimer.send, read := Read.returned, isStop := true,
          closes := 0, reconnects := 0 }
    ∧ run ([Goroutine.read, Goroutine.read, Goroutine.pongTimer, Goroutine.pongTimer,
          Goroutine.pongTimer, Goroutine.main, Goroutine.main, Goroutine.main,
          Goroutine.main, Goroutine.main, Goroutine.main] ++ more) bothTriggers
      = { main := Main.returned, heartbeat := Heartbeat.returned,
          pongTimer := PongTimer.returned, read := Read.send, isStop := true,
          closes := 1, reconnects := 1 }
    ∧ run [Goroutine.read, Goroutine.read, Goroutine.read, Goroutine.main,
          Goroutine.pongTimer, Goroutine.pongTimer, Goroutine.main, Goroutine.main,
          Goroutine.main, Goroutine.main, Goroutine.main] bothTriggers
      = { main := Main.returned, heartbeat := Heartbeat.returned,
          pongTimer := PongTimer.returned, read := Read.returned, isStop := true,
          closes := 1, reconnects := 1 } := by
  refine ⟨?_, ?_, by decide⟩
  · rw [run_append]
    have h : run [Goroutine.read, Goroutine.read, Goroutine.pongTimer, Goroutine.pongTimer,
          Goroutine.read, Goroutine.main, Goroutine.main] bothTriggers
        = { main := Main.cancelPong, heartbeat := Heartbeat.returned,
            pongTimer := PongTimer.send, read := Read.returned, isStop := true,
            closes := 0, reconnects := 0 } := by decide
    rw [h]
    exact run_stuck _ (by decide) more
  · rw [run_append]
    have h : run [Goroutine.read, Goroutine.read, Goroutine.pongTimer, Goroutine.pongTimer,
          Goroutine.pongTimer, Goroutine.main, Goroutine.main, Goroutine.main,
          Goroutine.main, Goroutine.main, Goroutine.main] bothTriggers
        = { main := Main.returned, heartbeat := Heartbeat.returned,
            pongTimer := PongTimer.returned, read := Read.send, isStop := true,
            closes := 1, reconnects := 1 } := by decide
    rw [h]
    exact run_stuck _ (by decide) more

end client.lifecycle
